import Mathlib

/-!
Verification of the local/remote reconciliation engine of the securedrop
client storage layer, against its natural-language specification.

The engine itself (the `securedrop_client.storage` module) is not part of
the shipped sources of this snapshot; the definitions below carry the doc
comment `Modelled from the spec:` and embed the behaviour described by the
specification (sections 3, 4, 6, 7 and 8), keeping the source's function
names.  The filesystem is modelled as an explicit association list of
paths to file contents plus a set of "faulty" paths whose removal raises a
non-`FileNotFoundError` OS error; the relational store is a record of
typed row lists, and each reconcile call additionally returns the list of
store operations (adds, updates, deletes, commits) it performed.
-/

set_option autoImplicit false

namespace Storage

/-! ### Filenames and paths -/

/-- Joining a data directory with a filename, as `os.path.join` does for a
directory and a plain file name. -/
def pathJoin (dir name : String) : String := dir ++ "/" ++ name

/-- Modelled from the spec: the root part of `os.path.splitext` — everything
before the last `.` of the name.  A name with no `.`, or whose only `.` is
the leading character, is returned whole. -/
def splitextRoot (s : String) : String :=
  let rev := s.data.reverse
  if rev.contains '.' then
    let root := ((rev.dropWhile (fun c => c ≠ '.')).drop 1).reverse
    if root.isEmpty then s else String.mk root
  else s

/-- Auxiliary recursion for `stageNames`, with fuel bounding the number of
extension-stripping steps. -/
def stageNamesGo (fuel : Nat) (f : String) : List String :=
  match fuel with
  | 0 => [f]
  | fuel + 1 =>
    let r := splitextRoot f
    if r = f then [f] else f :: stageNamesGo fuel r

/-- Modelled from the spec: every filename an artifact could have at any
processing stage — the original encrypted name, each intermediate name with
one more extension stripped, down to the fully stripped final decrypted
name (e.g. `1-x-doc.gz.gpg`, `1-x-doc.gz`, `1-x-doc`). -/
def stageNames (filename : String) : List String :=
  stageNamesGo filename.length filename

/-- The numeric value of a digit string. -/
def digitsToNat (cs : List Char) : Nat :=
  cs.foldl (fun n c => n * 10 + (c.toNat - 48)) 0

/-- Modelled from the spec: the per-source ordering counter encoded as the
leading integer of a filename (`<counter>-<slug>-<kind>[.stage].gpg`); a
filename with no leading integer yields 0. -/
def fileCounterOf (filename : String) : Nat :=
  let head := filename.data.takeWhile (fun c => c ≠ '-')
  if head.all (fun c => c.isDigit) && !head.isEmpty then digitsToNat head else 0

/-! ### Filesystem model -/

/-- The data directory contents: an association list from paths to file
contents, together with the set of paths whose removal raises an OS error
other than `FileNotFoundError`. -/
structure Fs where
  files : List (String × String)
  faulty : List String
deriving DecidableEq, Repr

/-- Whether a file exists at path `p`. -/
def Fs.hasFile (fs : Fs) (p : String) : Bool :=
  fs.files.any (fun e => e.1 == p)

/-- Errors a single filesystem removal can raise. -/
inductive FsError where
  | notFound
  | osError
deriving DecidableEq, Repr

/-- `os.remove`: removing a faulty path raises a generic OS error, removing
an absent path raises `FileNotFoundError`, otherwise the file is removed. -/
def osRemove (fs : Fs) (p : String) : Except FsError Fs :=
  if fs.faulty.contains p then .error .osError
  else if fs.hasFile p then
    .ok { fs with files := fs.files.filter (fun e => !(e.1 == p)) }
  else .error .notFound

/-- Modelled from the spec: attempt removal of each listed stage filename in
turn; a `FileNotFoundError` on an individual removal is swallowed and the
walk continues, while any other OS error stops the walk for this item and
is reported through the boolean (`false` = fatal error for this item).
Removals performed before the error remain in effect. -/
def deleteStages (dataDir : String) : List String → Fs → Fs × Bool
  | [], fs => (fs, true)
  | n :: ns, fs =>
    match osRemove fs (pathJoin dataDir n) with
    | .ok fs' => deleteStages dataDir ns fs'
    | .error .notFound => deleteStages dataDir ns fs
    | .error .osError => (fs, false)

/-- Modelled from the spec: `delete_single_submission_or_reply_on_disk`
attempts removal of every filename the artifact could have at any
processing stage; file-not-found conditions are swallowed, any other
filesystem error is fatal for this item only (boolean `false`). -/
def delete_single_submission_or_reply_on_disk (filename : String) (dataDir : String)
    (fs : Fs) : Fs × Bool :=
  deleteStages dataDir (stageNames filename) fs

/-- Modelled from the spec: on-disk deletion of a batch of artifacts, one
`delete_single_submission_or_reply_on_disk` call per item; an item whose
deletion hits a fatal filesystem error does not abort the rest of the
batch, and the number of failed items is surfaced to the caller. -/
def deleteItemsOnDisk (dataDir : String) : List String → Fs → Fs × Nat
  | [], fs => (fs, 0)
  | f :: rest, fs =>
    let r := delete_single_submission_or_reply_on_disk f dataDir fs
    let k := deleteItemsOnDisk dataDir rest r.1
    (k.1, (if r.2 then 0 else 1) + k.2)

/-- Modelled from the spec: `rename_file` derives the decrypted sibling of
each filename by stripping the trailing extension; if a file exists at the
old decrypted path it is renamed (content preserved) to the new decrypted
path, and if not the call is a no-op. -/
def rename_file (dataDir oldFilename newFilename : String) (fs : Fs) : Fs :=
  let oldP := pathJoin dataDir (splitextRoot oldFilename)
  let newP := pathJoin dataDir (splitextRoot newFilename)
  match fs.files.find? (fun e => e.1 == oldP) with
  | some e =>
    { fs with files := (fs.files.filter (fun x => !(x.1 == oldP))) ++ [(newP, e.2)] }
  | none => fs

/-! ### Data model

Remote snapshot records (plain data handed over by the fetch collaborator)
and local store rows.  `last_updated` timestamps are kept as their ISO-8601
strings (parsing is external); `is_decrypted` is the tri-state
`Option Bool` (`none` = not attempted, `some false` = failed,
`some true` = succeeded). -/

/-- Remote source record of the snapshot. -/
structure RemoteSource where
  uuid : String
  journalist_designation : String
  is_flagged : Bool
  public_key : String
  interaction_count : Nat
  is_starred : Bool
  last_updated : String
deriving DecidableEq, Repr

/-- Remote submission record (serves both the File and the Message kind). -/
structure RemoteSubmission where
  uuid : String
  filename : String
  size : Nat
  download_url : String
  is_read : Bool
  source_uuid : String
deriving DecidableEq, Repr

/-- Remote reply record. -/
structure RemoteReply where
  uuid : String
  filename : String
  size : Nat
  source_uuid : String
  journalist_uuid : String
  journalist_username : String
deriving DecidableEq, Repr

/-- Local `sources` row. -/
structure Source where
  id : Nat
  uuid : String
  journalist_designation : String
  is_flagged : Bool
  public_key : String
  interaction_count : Nat
  is_starred : Bool
  last_updated : String
deriving DecidableEq, Repr

/-- Local `users` row (journalist account). -/
structure User where
  id : Nat
  uuid : String
  username : String
deriving DecidableEq, Repr

/-- Local `submissions` row, serving both the File and the Message kind
(`content` is populated for messages only). -/
structure Submission where
  id : Nat
  uuid : String
  filename : String
  size : Nat
  download_url : String
  is_read : Bool
  is_downloaded : Bool
  is_decrypted : Option Bool
  content : Option String
  source_id : Nat
deriving DecidableEq, Repr

/-- Local `replies` row. -/
structure Reply where
  id : Nat
  uuid : String
  filename : String
  size : Nat
  is_downloaded : Bool
  is_decrypted : Option Bool
  content : Option String
  file_counter : Nat
  source_id : Nat
  journalist_id : Nat
deriving DecidableEq, Repr

/-- Send status of a locally-originated draft reply. -/
inductive ReplySendStatus where
  | PENDING
  | FAILED
  | SENT
deriving DecidableEq, Repr

/-- Local `draftreplies` row: a locally-originated reply not yet confirmed
by the remote system. -/
structure DraftReply where
  id : Nat
  uuid : String
  source_id : Nat
  journalist_id : Nat
  file_counter : Nat
  timestamp : Nat
  send_status : ReplySendStatus
deriving DecidableEq, Repr

/-- The relational store: one list of rows per table, plus the next free
cache-internal integer id. -/
structure Database where
  sources : List Source
  users : List User
  files : List Submission
  messages : List Submission
  replies : List Reply
  draft_replies : List DraftReply
  next_id : Nat
deriving DecidableEq, Repr

/-- A store operation, recorded so that the transaction discipline of a
reconcile call (how many commits it performs) is observable. -/
inductive Op where
  | add
  | update
  | delete
  | commit
deriving DecidableEq, Repr

/-- Named failure of a reconcile call. -/
inductive ErrorKind where
  | MissingParent
deriving DecidableEq, Repr

/-! ### Attribution resolver -/

/-- Result of `find_or_create_user`: the returned user, the new `users`
table, the next free id, and the store operations performed. -/
structure FocuResult where
  user : User
  users : List User
  next_id : Nat
  ops : List Op
deriving DecidableEq, Repr

/-- Modelled from the spec: `find_or_create_user` looks up a `User` by uuid;
if found, its `username` is updated to the supplied value and the existing
row is returned; if not found a new `User` row with that uuid/username is
created, persisted immediately (add and commit), and returned. -/
def find_or_create_user (uuid username : String) (users : List User) (next_id : Nat) :
    FocuResult :=
  match users.find? (fun u => u.uuid == uuid) with
  | some u =>
    let u' : User := { u with username := username }
    { user := u',
      users := users.map (fun v => if v.uuid == uuid then u' else v),
      next_id := next_id,
      ops := [Op.update] }
  | none =>
    let u : User := { id := next_id, uuid := uuid, username := username }
    { user := u, users := users ++ [u], next_id := next_id + 1,
      ops := [Op.add, Op.commit] }

/-! ### Source reconciler -/

/-- Result of one reconcile call: the new store, the new filesystem, the
store operations performed, and how many items hit a fatal filesystem
error during artifact deletion (surfaced as a partial-failure count). -/
structure SyncResult where
  db : Database
  fs : Fs
  ops : List Op
  fsFails : Nat
deriving DecidableEq, Repr

/-- Modelled from the spec: the fixed field-copy list applied to a local
Source matched by a remote source (designation, flag, public key,
interaction count, star, last-updated). -/
def applySourceFields (s : Source) (r : RemoteSource) : Source :=
  { s with
    journalist_designation := r.journalist_designation,
    is_flagged := r.is_flagged,
    public_key := r.public_key,
    interaction_count := r.interaction_count,
    is_starred := r.is_starred,
    last_updated := r.last_updated }

/-- A new local Source row staged for a remote source absent locally. -/
def mkSource (id : Nat) (r : RemoteSource) : Source :=
  { id := id, uuid := r.uuid,
    journalist_designation := r.journalist_designation,
    is_flagged := r.is_flagged, public_key := r.public_key,
    interaction_count := r.interaction_count, is_starred := r.is_starred,
    last_updated := r.last_updated }

/-- Staging of the new Source rows, assigning consecutive cache-internal
ids starting at `next`. -/
def mkSourcesFrom (next : Nat) : List RemoteSource → List Source
  | [] => []
  | r :: rs => mkSource next r :: mkSourcesFrom (next + 1) rs

/-- Modelled from the spec: `update_sources` — remote sources present
locally are updated in place, remote sources absent locally are created,
and local sources absent from the remote set are deleted with a cascade:
the on-disk artifacts of their File/Message/Reply children are removed
(DraftReply children own no artifacts), then the child rows and the Source
row are deleted.  The staged batch commits once at the end. -/
def update_sources (remote : List RemoteSource) (db : Database) (fs : Fs)
    (dataDir : String) : SyncResult :=
  let remoteUuids := remote.map (fun r => r.uuid)
  let localUuids := db.sources.map (fun s => s.uuid)
  let kept := db.sources.filterMap (fun s =>
    (remote.find? (fun r => r.uuid == s.uuid)).map (applySourceFields s))
  let toCreate := remote.filter (fun r => !(localUuids.contains r.uuid))
  let created := mkSourcesFrom db.next_id toCreate
  let deleted := db.sources.filter (fun s => !(remoteUuids.contains s.uuid))
  let deletedIds := deleted.map (fun s => s.id)
  let childFiles := db.files.filter (fun f => deletedIds.contains f.source_id)
  let childMessages := db.messages.filter (fun m => deletedIds.contains m.source_id)
  let childReplies := db.replies.filter (fun r => deletedIds.contains r.source_id)
  let fsr := deleteItemsOnDisk dataDir
    (childFiles.map (fun f => f.filename) ++ childMessages.map (fun m => m.filename)
      ++ childReplies.map (fun r => r.filename)) fs
  { db := { db with
      sources := kept ++ created,
      files := db.files.filter (fun f => !(deletedIds.contains f.source_id)),
      messages := db.messages.filter (fun m => !(deletedIds.contains m.source_id)),
      replies := db.replies.filter (fun r => !(deletedIds.contains r.source_id)),
      draft_replies := db.draft_replies.filter (fun d => !(deletedIds.contains d.source_id)),
      next_id := db.next_id + created.length },
    fs := fsr.1,
    ops := kept.map (fun _ => Op.update) ++ created.map (fun _ => Op.add)
      ++ deleted.map (fun _ => Op.delete) ++ [Op.commit],
    fsFails := fsr.2 }

/-! ### File / Message reconciler -/

/-- Modelled from the spec: the fixed field-copy list for the File/Message
kinds (filename, size, read flag; the remote snapshot carries no download
flag, so the local one is kept). -/
def applySubFields (l : Submission) (r : RemoteSubmission) : Submission :=
  { l with filename := r.filename, size := r.size, is_read := r.is_read }

/-- A new local submission row staged for a remote item absent locally. -/
def mkSubmission (id : Nat) (r : RemoteSubmission) (source_id : Nat) : Submission :=
  { id := id, uuid := r.uuid, filename := r.filename, size := r.size,
    download_url := r.download_url, is_read := r.is_read, is_downloaded := false,
    is_decrypted := none, content := none, source_id := source_id }

/-- Modelled from the spec: staging of the new rows for remote submissions
absent locally; resolving the owning Source's local id fails (for the
whole call) if no local Source exists for the remote item's source
reference. -/
def createSubs (sources : List Source) (next : Nat) :
    List RemoteSubmission → Option (List Submission)
  | [] => some []
  | r :: rs =>
    match sources.find? (fun s => s.uuid == r.source_uuid) with
    | none => none
    | some s =>
      (createSubs sources (next + 1) rs).map (fun rest => mkSubmission next r s.id :: rest)

/-- Result of the shared File/Message reconcile pass. -/
structure SubsResult where
  rows : List Submission
  next_id : Nat
  fs : Fs
  ops : List Op
  fsFails : Nat
deriving DecidableEq, Repr

/-- Modelled from the spec: the reconcile pass shared by the File and the
Message kind — update matched rows in place (renaming the decrypted
sibling on disk when the filename changed), stage new rows for unmatched
remote items (`MissingParent` if the owning Source is unknown), delete
local rows absent from the remote set together with their on-disk
artifacts, and commit the batch once. -/
def reconcileSubs (remote : List RemoteSubmission) (rows : List Submission)
    (sources : List Source) (next_id : Nat) (fs : Fs) (dataDir : String) :
    Except ErrorKind SubsResult :=
  let remoteUuids := remote.map (fun r => r.uuid)
  let localUuids := rows.map (fun l => l.uuid)
  let kept := rows.filterMap (fun l =>
    (remote.find? (fun r => r.uuid == l.uuid)).map (fun r => (l, r)))
  let fs1 := kept.foldl (fun fsa p =>
    if p.1.filename == p.2.filename then fsa
    else rename_file dataDir p.1.filename p.2.filename fsa) fs
  let keptRows := kept.map (fun p => applySubFields p.1 p.2)
  let toCreate := remote.filter (fun r => !(localUuids.contains r.uuid))
  match createSubs sources next_id toCreate with
  | none => .error .MissingParent
  | some created =>
    let toDelete := rows.filter (fun l => !(remoteUuids.contains l.uuid))
    let fsr := deleteItemsOnDisk dataDir (toDelete.map (fun l => l.filename)) fs1
    .ok { rows := keptRows ++ created,
          next_id := next_id + created.length,
          fs := fsr.1,
          ops := keptRows.map (fun _ => Op.update) ++ created.map (fun _ => Op.add)
            ++ toDelete.map (fun _ => Op.delete) ++ [Op.commit],
          fsFails := fsr.2 }

/-- Modelled from the spec: `update_files` — the File-kind reconcile call. -/
def update_files (remote : List RemoteSubmission) (db : Database) (fs : Fs)
    (dataDir : String) : Except ErrorKind SyncResult :=
  match reconcileSubs remote db.files db.sources db.next_id fs dataDir with
  | .error e => .error e
  | .ok r =>
    .ok { db := { db with files := r.rows, next_id := r.next_id },
          fs := r.fs, ops := r.ops, fsFails := r.fsFails }

/-- Modelled from the spec: `update_messages` — the Message-kind reconcile
call. -/
def update_messages (remote : List RemoteSubmission) (db : Database) (fs : Fs)
    (dataDir : String) : Except ErrorKind SyncResult :=
  match reconcileSubs remote db.messages db.sources db.next_id fs dataDir with
  | .error e => .error e
  | .ok r =>
    .ok { db := { db with messages := r.rows, next_id := r.next_id },
          fs := r.fs, ops := r.ops, fsFails := r.fsFails }

/-! ### Reply reconciler and draft promotion -/

/-- Modelled from the spec: `update_draft_replies` — the drafts of the
promoted draft's Source that were ordered after it with the same
`file_counter` (later `timestamp`, the tiebreak of the source-scoped
order) are re-sequenced to the `file_counter` that places them immediately
after the newly confirmed Reply; drafts ordered elsewhere keep their
counters, preserving the relative order among remaining drafts. -/
def resequenceDrafts (source_id timestamp old_counter new_counter : Nat)
    (drafts : List DraftReply) : List DraftReply :=
  drafts.map (fun d =>
    if d.source_id == source_id && d.file_counter == old_counter
        && decide (timestamp < d.timestamp) then
      { d with file_counter := new_counter }
    else d)

/-- A new local Reply row staged for a remote reply absent locally. -/
def mkReply (id : Nat) (r : RemoteReply) (source_id journalist_id counter : Nat) : Reply :=
  { id := id, uuid := r.uuid, filename := r.filename, size := r.size,
    is_downloaded := false, is_decrypted := none, content := none,
    file_counter := counter, source_id := source_id, journalist_id := journalist_id }

/-- Store state threaded through the reply-creation pass. -/
structure RState where
  users : List User
  drafts : List DraftReply
  next_id : Nat
  ops : List Op
deriving DecidableEq, Repr

/-- Modelled from the spec: staging of the new Reply rows for remote
replies absent locally.  The owning Source must exist locally
(`MissingParent` otherwise) and the journalist is resolved through the
attribution resolver.  When the remote reply's uuid matches a local
DraftReply the draft is promoted: the draft row is deleted, the confirmed
Reply takes the ordering position the draft previously held (same
`file_counter`), and the remaining drafts of that Source are re-sequenced;
with no matching draft the counter is the one encoded in the filename. -/
def createReplies (sources : List Source) :
    List RemoteReply → RState → Option (List Reply × RState)
  | [], st => some ([], st)
  | r :: rs, st =>
    match sources.find? (fun s => s.uuid == r.source_uuid) with
    | none => none
    | some s =>
      let fu := find_or_create_user r.journalist_uuid r.journalist_username
        st.users st.next_id
      match st.drafts.find? (fun d => d.uuid == r.uuid) with
      | some d =>
        let nr := mkReply fu.next_id r s.id fu.user.id d.file_counter
        let drafts' := resequenceDrafts d.source_id d.timestamp d.file_counter
          nr.file_counter (st.drafts.filter (fun d2 => !(d2.uuid == d.uuid)))
        (createReplies sources rs
          { users := fu.users, drafts := drafts', next_id := fu.next_id + 1,
            ops := st.ops ++ fu.ops ++ [Op.delete, Op.add] }).map
          (fun p => (nr :: p.1, p.2))
      | none =>
        let nr := mkReply fu.next_id r s.id fu.user.id (fileCounterOf r.filename)
        (createReplies sources rs
          { users := fu.users, drafts := st.drafts, next_id := fu.next_id + 1,
            ops := st.ops ++ fu.ops ++ [Op.add] }).map
          (fun p => (nr :: p.1, p.2))

/-- Result of the update pass over matched local replies. -/
structure KeptRepliesResult where
  rows : List Reply
  users : List User
  next_id : Nat
  fs : Fs
  ops : List Op
deriving DecidableEq, Repr

/-- Modelled from the spec: the update pass over local replies matched by a
remote reply — copy filename and size, resolve journalist attribution via
the attribution resolver, and rename the decrypted sibling on disk when
the filename changed. -/
def updateKeptReplies (dataDir : String) :
    List (Reply × RemoteReply) → List User → Nat → Fs → KeptRepliesResult
  | [], users, nid, fs => { rows := [], users := users, next_id := nid, fs := fs, ops := [] }
  | p :: ps, users, nid, fs =>
    let fu := find_or_create_user p.2.journalist_uuid p.2.journalist_username users nid
    let fs' := if p.1.filename == p.2.filename then fs
      else rename_file dataDir p.1.filename p.2.filename fs
    let l' : Reply :=
      { p.1 with filename := p.2.filename, size := p.2.size, journalist_id := fu.user.id }
    let rest := updateKeptReplies dataDir ps fu.users fu.next_id fs'
    { rows := l' :: rest.rows, users := rest.users, next_id := rest.next_id,
      fs := rest.fs, ops := fu.ops ++ [Op.update] ++ rest.ops }

/-- The local replies matched by a remote reply, paired with their match. -/
def repliesKept (remote : List RemoteReply) (db : Database) : List (Reply × RemoteReply) :=
  db.replies.filterMap (fun l =>
    (remote.find? (fun r => r.uuid == l.uuid)).map (fun r => (l, r)))

/-- The remote replies with no matching local reply row. -/
def repliesToCreate (remote : List RemoteReply) (db : Database) : List RemoteReply :=
  remote.filter (fun r => !((db.replies.map (fun l => l.uuid)).contains r.uuid))

/-- The local replies absent from the remote snapshot. -/
def repliesToDelete (remote : List RemoteReply) (db : Database) : List Reply :=
  db.replies.filter (fun l => !((remote.map (fun r => r.uuid)).contains l.uuid))

/-- Modelled from the spec: `update_replies` — the Reply-kind reconcile
call: update matched rows in place, stage new rows for unmatched remote
replies (promoting a matching local DraftReply when one exists), delete
local replies absent from the remote set together with their on-disk
artifacts, and commit the staged batch once at the end. -/
def update_replies (remote : List RemoteReply) (db : Database) (fs : Fs)
    (dataDir : String) : Except ErrorKind SyncResult :=
  let k := updateKeptReplies dataDir (repliesKept remote db) db.users db.next_id fs
  match createReplies db.sources (repliesToCreate remote db)
      { users := k.users, drafts := db.draft_replies, next_id := k.next_id, ops := [] } with
  | none => .error .MissingParent
  | some p =>
    let toDelete := repliesToDelete remote db
    let fsr := deleteItemsOnDisk dataDir (toDelete.map (fun l => l.filename)) k.fs
    .ok { db := { db with
                  replies := k.rows ++ p.1, users := p.2.users,
                  draft_replies := p.2.drafts, next_id := p.2.next_id },
          fs := fsr.1,
          ops := k.ops ++ p.2.ops ++ toDelete.map (fun _ => Op.delete) ++ [Op.commit],
          fsFails := fsr.2 }

/-! ### Orchestrator -/

/-- Modelled from the spec: the split of the remote submission collection
into the Message kind (filenames of the `msg` kind) and the File kind. -/
def isMessageFilename (f : String) : Bool := f.endsWith "msg.gpg"

/-- The Message-kind part of the remote submission collection. -/
def remoteMessages (subs : List RemoteSubmission) : List RemoteSubmission :=
  subs.filter (fun s => isMessageFilename s.filename)

/-- The File-kind part of the remote submission collection. -/
def remoteFiles (subs : List RemoteSubmission) : List RemoteSubmission :=
  subs.filter (fun s => !(isMessageFilename s.filename))

/-- Modelled from the spec: `update_local_storage` (the `reconcile_all`
entry point) — reconcile sources, then files, then messages, then
replies, each as its own committed batch, against one remote snapshot. -/
def update_local_storage (remoteSources : List RemoteSource)
    (remoteSubmissions : List RemoteSubmission) (remoteReplies : List RemoteReply)
    (db : Database) (fs : Fs) (dataDir : String) : Except ErrorKind SyncResult :=
  let r1 := update_sources remoteSources db fs dataDir
  match update_files (remoteFiles remoteSubmissions) r1.db r1.fs dataDir with
  | .error e => .error e
  | .ok r2 =>
    match update_messages (remoteMessages remoteSubmissions) r2.db r2.fs dataDir with
    | .error e => .error e
    | .ok r3 =>
      match update_replies remoteReplies r3.db r3.fs dataDir with
      | .error e => .error e
      | .ok r4 =>
        .ok { db := r4.db, fs := r4.fs,
              ops := r1.ops ++ r2.ops ++ r3.ops ++ r4.ops,
              fsFails := r1.fsFails + r2.fsFails + r3.fsFails + r4.fsFails }

/-! ### Lifecycle tracker -/

/-- Modelled from the spec: the `find_new` work-queue condition —
`is_downloaded == false OR is_decrypted != true`. -/
def isNewItem (is_downloaded : Bool) (is_decrypted : Option Bool) : Bool :=
  !is_downloaded || !(is_decrypted == some true)

/-- Modelled from the spec: `find_new_files`. -/
def find_new_files (db : Database) : List Submission :=
  db.files.filter (fun l => isNewItem l.is_downloaded l.is_decrypted)

/-- Modelled from the spec: `find_new_messages`. -/
def find_new_messages (db : Database) : List Submission :=
  db.messages.filter (fun l => isNewItem l.is_downloaded l.is_decrypted)

/-- Modelled from the spec: `find_new_replies`. -/
def find_new_replies (db : Database) : List Reply :=
  db.replies.filter (fun l => isNewItem l.is_downloaded l.is_decrypted)

/-- The row update performed by `mark_as_not_downloaded` on a submission
row: `is_downloaded` is cleared and `is_decrypted` reset to unset. -/
def demoteSubmission (l : Submission) : Submission :=
  { l with is_downloaded := false, is_decrypted := none }

/-- The row update performed by `mark_as_not_downloaded` on a reply row. -/
def demoteReply (l : Reply) : Reply :=
  { l with is_downloaded := false, is_decrypted := none }

/-- Modelled from the spec: `mark_as_not_downloaded` sets
`is_downloaded = false` and resets `is_decrypted` to unset on the artifact
row with the given uuid. -/
def mark_as_not_downloaded (uuid : String) (db : Database) : Database :=
  { db with
    files := db.files.map (fun l => if l.uuid == uuid then demoteSubmission l else l),
    messages := db.messages.map (fun l => if l.uuid == uuid then demoteSubmission l else l),
    replies := db.replies.map (fun l => if l.uuid == uuid then demoteReply l else l) }

/-- Whether the decrypted sibling of `filename` is missing from the data
directory. -/
def missingOnDisk (dataDir : String) (fs : Fs) (filename : String) : Bool :=
  !(fs.hasFile (pathJoin dataDir (splitextRoot filename)))

/-- Modelled from the spec: `update_missing_files` — every artifact row
marked downloaded whose decrypted file no longer exists on disk is demoted
through the `mark_as_not_downloaded` row update; the rest are left
unchanged. -/
def update_missing_files (dataDir : String) (db : Database) (fs : Fs) : Database :=
  { db with
    files := db.files.map (fun l =>
      if l.is_downloaded && missingOnDisk dataDir fs l.filename then demoteSubmission l else l),
    messages := db.messages.map (fun l =>
      if l.is_downloaded && missingOnDisk dataDir fs l.filename then demoteSubmission l else l),
    replies := db.replies.map (fun l =>
      if l.is_downloaded && missingOnDisk dataDir fs l.filename then demoteReply l else l) }

/-- Modelled from the spec: the specification does not describe this
operation; its behaviour is the one exercised by the repository's test
`test_pending_replies_are_marked_as_failed_on_logout_login` —
`mark_all_pending_drafts_as_failed` sets the send status of every
DraftReply whose status is PENDING to FAILED. -/
def mark_all_pending_drafts_as_failed (db : Database) : Database :=
  { db with draft_replies := db.draft_replies.map (fun d =>
      if d.send_status = ReplySendStatus.PENDING then
        { d with send_status := ReplySendStatus.FAILED }
      else d) }

/-! ### Filesystem lemmas -/

theorem osRemove_ok {fs : Fs} {p : String} {fs' : Fs} (h : osRemove fs p = .ok fs') :
    fs' = { fs with files := fs.files.filter (fun e => !(e.1 == p)) } := by
  unfold osRemove at h
  split at h
  · exact absurd h (by simp)
  · split at h
    · injection h with h
      exact h.symm
    · exact absurd h (by simp)

theorem osRemove_ok_not_faulty {fs : Fs} {p : String} {fs' : Fs}
    (h : osRemove fs p = .ok fs') : fs.faulty.contains p = false := by
  unfold osRemove at h
  split at h
  · exact absurd h (by simp)
  · simp_all

theorem osRemove_faulty_error {fs : Fs} {p : String}
    (h : fs.faulty.contains p = true) : osRemove fs p = .error .osError := by
  unfold osRemove
  simp only [h, if_true]

theorem deleteStages_faulty (dd : String) (ns : List String) (fs : Fs) :
    (deleteStages dd ns fs).1.faulty = fs.faulty := by
  induction ns generalizing fs with
  | nil => rfl
  | cons n ns ih =>
    simp only [deleteStages]
    cases h : osRemove fs (pathJoin dd n) with
    | ok fs' =>
      rw [ih fs']
      rw [osRemove_ok h]
    | error e =>
      cases e with
      | notFound => exact ih fs
      | osError => rfl

theorem deleteStages_files_subset (dd : String) (ns : List String) (fs : Fs) :
    ∀ e ∈ (deleteStages dd ns fs).1.files, e ∈ fs.files := by
  induction ns generalizing fs with
  | nil => intro e he; exact he
  | cons n ns ih =>
    simp only [deleteStages]
    cases h : osRemove fs (pathJoin dd n) with
    | ok fs' =>
      intro e he
      have h1 := ih fs' e he
      rw [osRemove_ok h] at h1
      exact List.mem_of_mem_filter h1
    | error e' =>
      cases e' with
      | notFound => exact ih fs
      | osError => intro e he; exact he

theorem deleteStages_success (dd : String) (ns : List String) (fs : Fs)
    (h : ∀ n ∈ ns, fs.faulty.contains (pathJoin dd n) = false) :
    (deleteStages dd ns fs).2 = true := by
  induction ns generalizing fs with
  | nil => rfl
  | cons n ns ih =>
    simp only [deleteStages]
    cases hr : osRemove fs (pathJoin dd n) with
    | ok fs' =>
      apply ih fs'
      intro m hm
      rw [osRemove_ok hr]
      exact h m (List.mem_cons_of_mem n hm)
    | error e =>
      cases e with
      | notFound => exact ih fs (fun m hm => h m (List.mem_cons_of_mem n hm))
      | osError =>
        exfalso
        unfold osRemove at hr
        have hn := h n (List.mem_cons_self n ns)
        rw [hn] at hr
        simp at hr
        split at hr <;> simp_all

theorem deleteStages_removes (dd : String) (ns : List String) (fs : Fs)
    (h : ∀ n ∈ ns, fs.faulty.contains (pathJoin dd n) = false) :
    ∀ n ∈ ns, ∀ c, (pathJoin dd n, c) ∉ (deleteStages dd ns fs).1.files := by
  induction ns generalizing fs with
  | nil => intro n hn; exact absurd hn (List.not_mem_nil n)
  | cons hd ns ih =>
    intro n hn c
    simp only [deleteStages]
    have hhd := h hd (List.mem_cons_self hd ns)
    cases hr : osRemove fs (pathJoin dd hd) with
    | ok fs' =>
      rcases List.mem_cons.mp hn with heq | htl
      · subst heq
        intro hmem
        have h1 := deleteStages_files_subset dd ns fs' _ hmem
        rw [osRemove_ok hr] at h1
        have := List.of_mem_filter h1
        simp at this
      · exact ih fs' (fun m hm => by rw [osRemove_ok hr]; exact h m (List.mem_cons_of_mem hd hm)) n htl c
    | error e =>
      cases e with
      | notFound =>
        rcases List.mem_cons.mp hn with heq | htl
        · subst heq
          intro hmem
          have h1 := deleteStages_files_subset dd ns fs _ hmem
          unfold osRemove at hr
          rw [hhd] at hr
          simp only [Bool.false_eq_true, if_false] at hr
          split at hr
          · simp at hr
          · rename_i hhas
            apply hhas
            unfold Fs.hasFile
            exact List.any_eq_true.mpr ⟨_, h1, by simp⟩
        · exact ih fs (fun m hm => h m (List.mem_cons_of_mem hd hm)) n htl c
      | osError =>
        exfalso
        unfold osRemove at hr
        rw [hhd] at hr
        simp only [Bool.false_eq_true, if_false] at hr
        split at hr <;> simp_all

theorem deleteStages_fail (dd : String) (ns : List String) (fs : Fs)
    (h : ∃ n ∈ ns, fs.faulty.contains (pathJoin dd n) = true) :
    (deleteStages dd ns fs).2 = false := by
  induction ns generalizing fs with
  | nil => simp at h
  | cons hd ns ih =>
    simp only [deleteStages]
    by_cases hh : fs.faulty.contains (pathJoin dd hd) = true
    · rw [osRemove_faulty_error hh]
    · cases hr : osRemove fs (pathJoin dd hd) with
      | ok fs' =>
        apply ih fs'
        rcases h with ⟨n, hn, hfa⟩
        rcases List.mem_cons.mp hn with heq | htl
        · subst heq; exact absurd hfa hh
        · exact ⟨n, htl, by rw [osRemove_ok hr]; exact hfa⟩
      | error e =>
        cases e with
        | notFound =>
          apply ih fs
          rcases h with ⟨n, hn, hfa⟩
          rcases List.mem_cons.mp hn with heq | htl
          · subst heq; exact absurd hfa hh
          · exact ⟨n, htl, hfa⟩
        | osError =>
          exfalso
          unfold osRemove at hr
          split at hr
          · simp_all
          · split at hr <;> simp_all

theorem deleteItemsOnDisk_faulty (dd : String) (items : List String) (fs : Fs) :
    (deleteItemsOnDisk dd items fs).1.faulty = fs.faulty := by
  induction items generalizing fs with
  | nil => rfl
  | cons i items ih =>
    simp only [deleteItemsOnDisk]
    rw [ih]
    exact deleteStages_faulty dd (stageNames i) fs

theorem deleteItemsOnDisk_files_subset (dd : String) (items : List String) (fs : Fs) :
    ∀ e ∈ (deleteItemsOnDisk dd items fs).1.files, e ∈ fs.files := by
  induction items generalizing fs with
  | nil => intro e he; exact he
  | cons i items ih =>
    intro e he
    simp only [deleteItemsOnDisk] at he
    exact deleteStages_files_subset dd (stageNames i) fs e (ih _ e he)

theorem deleteItemsOnDisk_removes (dd : String) (items : List String) (fs : Fs)
    (i : String) (hi : i ∈ items)
    (h : ∀ n ∈ stageNames i, fs.faulty.contains (pathJoin dd n) = false) :
    ∀ n ∈ stageNames i, ∀ c, (pathJoin dd n, c) ∉ (deleteItemsOnDisk dd items fs).1.files := by
  induction items generalizing fs with
  | nil => exact absurd hi (List.not_mem_nil i)
  | cons hd items ih =>
    intro n hn c
    simp only [deleteItemsOnDisk]
    rcases List.mem_cons.mp hi with heq | htl
    · subst heq
      intro hmem
      have h1 := deleteItemsOnDisk_files_subset dd items _ _ hmem
      exact deleteStages_removes dd (stageNames i) fs h n hn c h1
    · refine ih _ htl ?_ n hn c
      intro m hm
      show (deleteStages dd (stageNames hd) fs).1.faulty.contains (pathJoin dd m) = false
      rw [deleteStages_faulty]
      exact h m hm

/-! ### Claim C5 -/

/-- C5: `delete_single_submission_or_reply_on_disk` attempts removal of every
filename the artifact could have at any processing stage (its stage names);
when no removal hits a filesystem fault the call returns normally
(swallowing any file-not-found condition) and every stage path is gone;
when some stage path is faulty the error is fatal for that item (the call
reports failure); and in a deletion batch a failing item does not abort the
rest: every non-faulty item's stage paths are still removed. -/
theorem C5_delete_on_disk_race_guard :
    (∀ (filename dataDir : String) (fs : Fs),
      (∀ n ∈ stageNames filename, fs.faulty.contains (pathJoin dataDir n) = false) →
        (delete_single_submission_or_reply_on_disk filename dataDir fs).2 = true ∧
        ∀ n ∈ stageNames filename, ∀ c,
          (pathJoin dataDir n, c) ∉
            (delete_single_submission_or_reply_on_disk filename dataDir fs).1.files) ∧
    (∀ (filename dataDir : String) (fs : Fs),
      (∃ n ∈ stageNames filename, fs.faulty.contains (pathJoin dataDir n) = true) →
        (delete_single_submission_or_reply_on_disk filename dataDir fs).2 = false) ∧
    (∀ (dataDir : String) (items : List String) (fs : Fs) (i : String),
      i ∈ items →
      (∀ n ∈ stageNames i, fs.faulty.contains (pathJoin dataDir n) = false) →
      ∀ n ∈ stageNames i, ∀ c,
        (pathJoin dataDir n, c) ∉ (deleteItemsOnDisk dataDir items fs).1.files) := by
  refine ⟨?_, ?_, ?_⟩
  · intro fn dd fs h
    exact ⟨deleteStages_success dd _ fs h, deleteStages_removes dd _ fs h⟩
  · intro fn dd fs h
    exact deleteStages_fail dd _ fs h
  · intro dd items fs i hi h
    exact deleteItemsOnDisk_removes dd items fs i hi h

/-- The item whose stage files are all present and none faulty. -/
def exC5fsOk : Fs := ⟨[("d/1-a-doc.gz.gpg", "x"), ("d/1-a-doc.gz", "y")], []⟩

/-- The item whose intermediate stage path raises a non-notFound OS error. -/
def exC5fsBad : Fs := ⟨[("d/1-a-doc.gz.gpg", "x")], ["d/1-a-doc.gz"]⟩

/-- A two-item batch: the first item's removal is faulty, the second is clean. -/
def exC5fsMix : Fs :=
  ⟨[("d/bad.gpg", "b"), ("d/1-a-doc.gz", "y")], ["d/bad"]⟩

theorem C5_delete_on_disk_race_guard_witness :
    ((∀ n ∈ stageNames "1-a-doc.gz.gpg", exC5fsOk.faulty.contains (pathJoin "d" n) = false) ∧
      (delete_single_submission_or_reply_on_disk "1-a-doc.gz.gpg" "d" exC5fsOk).2 = true) ∧
    ((∃ n ∈ stageNames "1-a-doc.gz.gpg", exC5fsBad.faulty.contains (pathJoin "d" n) = true) ∧
      (delete_single_submission_or_reply_on_disk "1-a-doc.gz.gpg" "d" exC5fsBad).2 = false) ∧
    (pathJoin "d" "1-a-doc.gz", "y") ∉
      (deleteItemsOnDisk "d" ["bad.gpg", "1-a-doc.gz.gpg"] exC5fsMix).1.files :=
  ⟨⟨by decide,
    (C5_delete_on_disk_race_guard.1 "1-a-doc.gz.gpg" "d" exC5fsOk (by decide)).1⟩,
   ⟨by decide,
    C5_delete_on_disk_race_guard.2.1 "1-a-doc.gz.gpg" "d" exC5fsBad (by decide)⟩,
   C5_delete_on_disk_race_guard.2.2 "d" ["bad.gpg", "1-a-doc.gz.gpg"] exC5fsMix
     "1-a-doc.gz.gpg" (by decide) (by decide) "1-a-doc.gz" (by decide) "y"⟩

/-! ### Claim C6 -/

/-- C6: `rename_file` derives the decrypted sibling paths by stripping the
trailing extension from each filename; when no file exists at the old
decrypted path the call is a no-op (raising no error and creating no
file), and when one exists it is renamed to the new decrypted path with
its content preserved (the old path is gone, nothing beyond the renamed
entry is created). -/
theorem C6_rename_file_spec :
    (∀ (dd oldN newN : String) (fs : Fs),
      fs.files.find? (fun e => e.1 == pathJoin dd (splitextRoot oldN)) = none →
        rename_file dd oldN newN fs = fs) ∧
    (∀ (dd oldN newN : String) (fs : Fs) (e : String × String),
      fs.files.find? (fun x => x.1 == pathJoin dd (splitextRoot oldN)) = some e →
        (pathJoin dd (splitextRoot newN), e.2) ∈ (rename_file dd oldN newN fs).files ∧
        (pathJoin dd (splitextRoot oldN) ≠ pathJoin dd (splitextRoot newN) →
          ∀ c, (pathJoin dd (splitextRoot oldN), c) ∉ (rename_file dd oldN newN fs).files) ∧
        (∀ q ∈ (rename_file dd oldN newN fs).files,
          q ∈ fs.files ∨ q = (pathJoin dd (splitextRoot newN), e.2))) := by
  constructor
  · intro dd oldN newN fs h
    simp only [rename_file, h]
  · intro dd oldN newN fs e h
    simp only [rename_file, h]
    refine ⟨by simp, ?_, ?_⟩
    · intro hne c hmem
      rcases List.mem_append.mp hmem with hf | hs
      · have := List.of_mem_filter hf
        simp at this
      · simp at hs
        exact hne hs.1
    · intro q hq
      rcases List.mem_append.mp hq with hf | hs
      · exact Or.inl (List.mem_of_mem_filter hf)
      · simp at hs
        exact Or.inr (by rw [hs])

/-- A data directory holding the decrypted sibling of `foo.txt`. -/
def exC6fs : Fs := ⟨[("data/foo", "bar")], []⟩

theorem C6_rename_file_spec_witness :
    (exC6fs.files.find? (fun e => e.1 == pathJoin "data" (splitextRoot "miss.txt")) = none ∧
      rename_file "data" "miss.txt" "other.txt" exC6fs = exC6fs) ∧
    (exC6fs.files.find? (fun x => x.1 == pathJoin "data" (splitextRoot "foo.txt")) =
        some ("data/foo", "bar") ∧
      (pathJoin "data" (splitextRoot "bar.txt"), "bar") ∈
        (rename_file "data" "foo.txt" "bar.txt" exC6fs).files) :=
  ⟨⟨by decide, C6_rename_file_spec.1 "data" "miss.txt" "other.txt" exC6fs (by decide)⟩,
   ⟨by decide,
    (C6_rename_file_spec.2 "data" "foo.txt" "bar.txt" exC6fs ("data/foo", "bar")
      (by decide)).1⟩⟩

/-! ### Claim C3 -/

theorem isNewItem_iff (d : Bool) (e : Option Bool) :
    isNewItem d e = true ↔ d = false ∨ e ≠ some true := by
  unfold isNewItem
  cases d <;> rcases e with _ | b <;> simp

/-- A message not yet downloaded. -/
def exC3msg1 : Submission :=
  ⟨1, "m1", "1-x-msg.gpg", 1, "u", false, false, none, none, 1⟩

/-- A message downloaded but with decryption not yet attempted. -/
def exC3msg2 : Submission :=
  ⟨2, "m2", "2-x-msg.gpg", 1, "u", false, true, none, none, 1⟩

/-- A message downloaded whose decryption failed. -/
def exC3msg3 : Submission :=
  ⟨3, "m3", "3-x-msg.gpg", 1, "u", false, true, some false, none, 1⟩

/-- A fully decrypted message. -/
def exC3msg4 : Submission :=
  ⟨4, "m4", "4-x-msg.gpg", 1, "u", false, true, some true, some "teehee", 1⟩

/-- The store of scenario D. -/
def exC3db : Database :=
  ⟨[], [], [], [exC3msg1, exC3msg2, exC3msg3, exC3msg4], [], [], 5⟩

/-- C3: for each of the File, Message and Reply kinds, the `find_new` query
returns exactly the rows satisfying `is_downloaded == false` OR
`is_decrypted != true`; over a store with one undownloaded, one
downloaded-but-undecrypted, one decrypt-failed and one fully decrypted
message, `find_new_messages` returns exactly the first three. -/
theorem C3_find_new_work_queue :
    (∀ (db : Database) (l : Submission),
      l ∈ find_new_files db ↔
        l ∈ db.files ∧ (l.is_downloaded = false ∨ l.is_decrypted ≠ some true)) ∧
    (∀ (db : Database) (l : Submission),
      l ∈ find_new_messages db ↔
        l ∈ db.messages ∧ (l.is_downloaded = false ∨ l.is_decrypted ≠ some true)) ∧
    (∀ (db : Database) (l : Reply),
      l ∈ find_new_replies db ↔
        l ∈ db.replies ∧ (l.is_downloaded = false ∨ l.is_decrypted ≠ some true)) ∧
    find_new_messages exC3db = [exC3msg1, exC3msg2, exC3msg3] := by
  refine ⟨?_, ?_, ?_, by decide⟩
  · intro db l
    unfold find_new_files
    rw [List.mem_filter, isNewItem_iff]
  · intro db l
    unfold find_new_messages
    rw [List.mem_filter, isNewItem_iff]
  · intro db l
    unfold find_new_replies
    rw [List.mem_filter, isNewItem_iff]

theorem C3_find_new_work_queue_witness :
    exC3msg1 ∈ find_new_messages exC3db ∧
    (exC3msg1 ∈ exC3db.messages ∧
      (exC3msg1.is_downloaded = false ∨ exC3msg1.is_decrypted ≠ some true)) :=
  ⟨(C3_find_new_work_queue.2.1 exC3db exC3msg1).mpr (by decide),
   (C3_find_new_work_queue.2.1 exC3db exC3msg1).mp (by decide)⟩

/-! ### Claim C7 -/

/-- C7: `update_missing_files` demotes, through the `mark_as_not_downloaded`
row update, every artifact row marked downloaded whose decrypted file does
not exist on disk — after the pass such a row has `is_downloaded = false`
and `is_decrypted` unset while keeping its identity — and leaves every
artifact whose decrypted file is still present (or which was not
downloaded) unchanged. -/
theorem C7_update_missing_files_demotes :
    ∀ (dd : String) (db : Database) (fs : Fs),
      (∀ l ∈ db.files,
        (l.is_downloaded = true → missingOnDisk dd fs l.filename = true →
          ∃ l2 ∈ (update_missing_files dd db fs).files,
            l2.uuid = l.uuid ∧ l2.filename = l.filename ∧
            l2.is_downloaded = false ∧ l2.is_decrypted = none) ∧
        (¬(l.is_downloaded = true ∧ missingOnDisk dd fs l.filename = true) →
          l ∈ (update_missing_files dd db fs).files)) ∧
      (∀ l ∈ db.messages,
        (l.is_downloaded = true → missingOnDisk dd fs l.filename = true →
          ∃ l2 ∈ (update_missing_files dd db fs).messages,
            l2.uuid = l.uuid ∧ l2.filename = l.filename ∧
            l2.is_downloaded = false ∧ l2.is_decrypted = none) ∧
        (¬(l.is_downloaded = true ∧ missingOnDisk dd fs l.filename = true) →
          l ∈ (update_missing_files dd db fs).messages)) ∧
      (∀ l ∈ db.replies,
        (l.is_downloaded = true → missingOnDisk dd fs l.filename = true →
          ∃ l2 ∈ (update_missing_files dd db fs).replies,
            l2.uuid = l.uuid ∧ l2.filename = l.filename ∧
            l2.is_downloaded = false ∧ l2.is_decrypted = none) ∧
        (¬(l.is_downloaded = true ∧ missingOnDisk dd fs l.filename = true) →
          l ∈ (update_missing_files dd db fs).replies)) ∧
      (∀ (u : String) (l : Submission), l ∈ db.files → l.uuid = u →
        demoteSubmission l ∈ (mark_as_not_downloaded u db).files) := by
  intro dd db fs
  refine ⟨?_, ?_, ?_, ?_⟩
  · intro l hl
    constructor
    · intro h1 h2
      refine ⟨demoteSubmission l, ?_, rfl, rfl, rfl, rfl⟩
      have := List.mem_map_of_mem (fun l =>
        if l.is_downloaded && missingOnDisk dd fs l.filename then demoteSubmission l else l) hl
      simpa [update_missing_files, h1, h2] using this
    · intro hne
      have := List.mem_map_of_mem (fun l =>
        if l.is_downloaded && missingOnDisk dd fs l.filename then demoteSubmission l else l) hl
      have hcond : (l.is_downloaded && missingOnDisk dd fs l.filename) = false := by
        cases hd : l.is_downloaded <;> cases hm : missingOnDisk dd fs l.filename <;> simp_all
      simpa [update_missing_files, hcond] using this
  · intro l hl
    constructor
    · intro h1 h2
      refine ⟨demoteSubmission l, ?_, rfl, rfl, rfl, rfl⟩
      have := List.mem_map_of_mem (fun l =>
        if l.is_downloaded && missingOnDisk dd fs l.filename then demoteSubmission l else l) hl
      simpa [update_missing_files, h1, h2] using this
    · intro hne
      have := List.mem_map_of_mem (fun l =>
        if l.is_downloaded && missingOnDisk dd fs l.filename then demoteSubmission l else l) hl
      have hcond : (l.is_downloaded && missingOnDisk dd fs l.filename) = false := by
        cases hd : l.is_downloaded <;> cases hm : missingOnDisk dd fs l.filename <;> simp_all
      simpa [update_missing_files, hcond] using this
  · intro l hl
    constructor
    · intro h1 h2
      refine ⟨demoteReply l, ?_, rfl, rfl, rfl, rfl⟩
      have := List.mem_map_of_mem (fun l =>
        if l.is_downloaded && missingOnDisk dd fs l.filename then demoteReply l else l) hl
      simpa [update_missing_files, h1, h2] using this
    · intro hne
      have := List.mem_map_of_mem (fun l =>
        if l.is_downloaded && missingOnDisk dd fs l.filename then demoteReply l else l) hl
      have hcond : (l.is_downloaded && missingOnDisk dd fs l.filename) = false := by
        cases hd : l.is_downloaded <;> cases hm : missingOnDisk dd fs l.filename <;> simp_all
      simpa [update_missing_files, hcond] using this
  · intro u l hl hu
    have := List.mem_map_of_mem (fun l =>
      if l.uuid == u then demoteSubmission l else l) hl
    simpa [mark_as_not_downloaded, hu] using this

/-- A downloaded file row whose decrypted sibling is gone from disk. -/
def exC7file : Submission :=
  ⟨1, "f1", "1-x-doc.gpg", 1, "u", false, true, some true, none, 1⟩

/-- A store holding only that file row. -/
def exC7db : Database := ⟨[], [], [exC7file], [], [], [], 2⟩

theorem C7_update_missing_files_demotes_witness :
    exC7file.is_downloaded = true ∧
    missingOnDisk "d" ⟨[], []⟩ exC7file.filename = true ∧
    ∃ l2 ∈ (update_missing_files "d" exC7db ⟨[], []⟩).files,
      l2.uuid = exC7file.uuid ∧ l2.filename = exC7file.filename ∧
      l2.is_downloaded = false ∧ l2.is_decrypted = none :=
  ⟨by decide, by decide,
   ((C7_update_missing_files_demotes "d" exC7db ⟨[], []⟩).1 exC7file (by decide)).1
     (by decide) (by decide)⟩

/-! ### Claim C10 -/

/-- C10: `mark_all_pending_drafts_as_failed` sets the send status of every
PENDING DraftReply to FAILED and leaves every DraftReply whose status is
not PENDING unchanged; afterwards no draft is PENDING and the number of
draft rows is unchanged. -/
theorem C10_mark_all_pending_drafts_as_failed :
    ∀ (db : Database),
      (∀ d ∈ db.draft_replies,
        (d.send_status = ReplySendStatus.PENDING →
          { d with send_status := ReplySendStatus.FAILED } ∈
            (mark_all_pending_drafts_as_failed db).draft_replies) ∧
        (d.send_status ≠ ReplySendStatus.PENDING →
          d ∈ (mark_all_pending_drafts_as_failed db).draft_replies)) ∧
      (∀ d ∈ (mark_all_pending_drafts_as_failed db).draft_replies,
        d.send_status ≠ ReplySendStatus.PENDING) ∧
      (mark_all_pending_drafts_as_failed db).draft_replies.length =
        db.draft_replies.length := by
  intro db
  refine ⟨?_, ?_, ?_⟩
  · intro d hd
    constructor
    · intro hp
      have := List.mem_map_of_mem (fun d =>
        if d.send_status = ReplySendStatus.PENDING then
          { d with send_status := ReplySendStatus.FAILED }
        else d) hd
      simpa [mark_all_pending_drafts_as_failed, hp] using this
    · intro hp
      have := List.mem_map_of_mem (fun d =>
        if d.send_status = ReplySendStatus.PENDING then
          { d with send_status := ReplySendStatus.FAILED }
        else d) hd
      simpa [mark_all_pending_drafts_as_failed, hp] using this
  · intro d hd
    simp only [mark_all_pending_drafts_as_failed] at hd
    rcases List.mem_map.mp hd with ⟨a, _, ha⟩
    by_cases hp : a.send_status = ReplySendStatus.PENDING
    · rw [if_pos hp] at ha
      rw [← ha]
      simp
    · rw [if_neg hp] at ha
      rw [← ha]
      exact hp
  · simp [mark_all_pending_drafts_as_failed]

/-- A pending draft. -/
def exC10draft : DraftReply := ⟨1, "u", 1, 1, 1, 0, .PENDING⟩

/-- A store holding one pending and one sent draft. -/
def exC10db : Database :=
  ⟨[], [], [], [], [], [exC10draft, ⟨2, "v", 1, 1, 2, 1, .SENT⟩], 3⟩

theorem C10_mark_all_pending_drafts_as_failed_witness :
    exC10draft.send_status = ReplySendStatus.PENDING ∧
    { exC10draft with send_status := ReplySendStatus.FAILED } ∈
      (mark_all_pending_drafts_as_failed exC10db).draft_replies ∧
    (⟨2, "v", 1, 1, 2, 1, .SENT⟩ : DraftReply) ∈
      (mark_all_pending_drafts_as_failed exC10db).draft_replies :=
  ⟨by decide,
   ((C10_mark_all_pending_drafts_as_failed exC10db).1 exC10draft (by decide)).1 (by decide),
   ((C10_mark_all_pending_drafts_as_failed exC10db).1 ⟨2, "v", 1, 1, 2, 1, .SENT⟩
     (by decide)).2 (by decide)⟩

/-! ### Claim C8 -/

/-- C8: `find_or_create_user` looks a User up by uuid; when one exists its
username is updated to the supplied value and that existing row (same id)
is returned, staying in the table with no row added; when none exists a
new User row with the supplied uuid/username is created, persisted
immediately (add and commit), and returned — in both cases the returned
user's uuid and username equal the arguments. -/
theorem C8_find_or_create_user_spec :
    ∀ (uuid username : String) (users : List User) (next_id : Nat),
      (find_or_create_user uuid username users next_id).user.uuid = uuid ∧
      (find_or_create_user uuid username users next_id).user.username = username ∧
      (users.find? (fun u => u.uuid == uuid) = none →
        (find_or_create_user uuid username users next_id).users =
          users ++ [(find_or_create_user uuid username users next_id).user] ∧
        (find_or_create_user uuid username users next_id).user.id = next_id ∧
        (find_or_create_user uuid username users next_id).ops = [Op.add, Op.commit]) ∧
      (∀ v, users.find? (fun u => u.uuid == uuid) = some v →
        (find_or_create_user uuid username users next_id).user.id = v.id ∧
        v ∈ users ∧
        (find_or_create_user uuid username users next_id).user ∈
          (find_or_create_user uuid username users next_id).users ∧
        (find_or_create_user uuid username users next_id).users.length = users.length ∧
        (find_or_create_user uuid username users next_id).ops = [Op.update]) := by
  intro uuid username users next_id
  cases h : users.find? (fun u => u.uuid == uuid) with
  | none =>
    refine ⟨?_, ?_, ?_, ?_⟩
    · simp [find_or_create_user, h]
    · simp [find_or_create_user, h]
    · intro _
      refine ⟨?_, ?_, ?_⟩ <;> simp [find_or_create_user, h]
    · intro v hv
      exact absurd hv (by simp)
  | some v0 =>
    have hbeq := List.find?_some h
    have huuid : v0.uuid = uuid := by simpa using hbeq
    refine ⟨?_, ?_, ?_, ?_⟩
    · simp [find_or_create_user, h, huuid]
    · simp [find_or_create_user, h]
    · intro hnone
      exact absurd hnone (by simp)
    · intro v hv
      injection hv with hv
      subst hv
      refine ⟨by simp [find_or_create_user, h], List.mem_of_find?_eq_some h, ?_, ?_, ?_⟩
      · have hm := List.mem_map_of_mem
          (fun w => if w.uuid == uuid then
            ({ v0 with username := username } : User) else w)
          (List.mem_of_find?_eq_some h)
        simpa [find_or_create_user, h, hbeq] using hm
      · simp [find_or_create_user, h]
      · simp [find_or_create_user, h]

/-- A users table with one existing journalist. -/
def exC8users : List User := [⟨7, "ju", "oldname"⟩]

theorem C8_find_or_create_user_spec_witness :
    ((find_or_create_user "ju" "newname" exC8users 9).user.uuid = "ju" ∧
      (find_or_create_user "ju" "newname" exC8users 9).user.username = "newname" ∧
      (find_or_create_user "ju" "newname" exC8users 9).user.id = 7 ∧
      (find_or_create_user "ju" "newname" exC8users 9).ops = [Op.update]) ∧
    ((find_or_create_user "jx" "fresh" exC8users 9).user.uuid = "jx" ∧
      (find_or_create_user "jx" "fresh" exC8users 9).user.id = 9 ∧
      (find_or_create_user "jx" "fresh" exC8users 9).ops = [Op.add, Op.commit]) := by
  have h1 := C8_find_or_create_user_spec "ju" "newname" exC8users 9
  have h2 := C8_find_or_create_user_spec "jx" "fresh" exC8users 9
  have h1f := h1.2.2.2 ⟨7, "ju", "oldname"⟩ (by decide)
  have h2f := h2.2.2.1 (by decide)
  exact ⟨⟨h1.1, h1.2.1, h1f.1, h1f.2.2.2.2⟩, ⟨h2.1, h2f.2.1, h2f.2.2⟩⟩

/-! ### Reconciler lemmas -/

theorem applySourceFields_uuid (s : Source) (r : RemoteSource) :
    (applySourceFields s r).uuid = s.uuid := rfl

theorem mkSource_uuid (i : Nat) (r : RemoteSource) : (mkSource i r).uuid = r.uuid := rfl

theorem applySubFields_uuid (l : Submission) (r : RemoteSubmission) :
    (applySubFields l r).uuid = l.uuid := rfl

theorem mkSubmission_uuid (i : Nat) (r : RemoteSubmission) (sid : Nat) :
    (mkSubmission i r sid).uuid = r.uuid := rfl

theorem mkReply_uuid (i : Nat) (r : RemoteReply) (sid jid c : Nat) :
    (mkReply i r sid jid c).uuid = r.uuid := rfl

theorem mkSourcesFrom_map_uuid (rs : List RemoteSource) (next : Nat) :
    (mkSourcesFrom next rs).map (fun s => s.uuid) = rs.map (fun r => r.uuid) := by
  induction rs generalizing next with
  | nil => rfl
  | cons r rs ih =>
    simp only [mkSourcesFrom, List.map_cons, mkSource_uuid, ih]

theorem createSubs_some_map_uuid (sources : List Source) (rs : List RemoteSubmission) :
    ∀ (next : Nat) (out : List Submission),
      createSubs sources next rs = some out →
      out.map (fun l => l.uuid) = rs.map (fun r => r.uuid) := by
  induction rs with
  | nil =>
    intro next out h
    simp only [createSubs] at h
    injection h with h
    subst h
    rfl
  | cons r rs ih =>
    intro next out h
    simp only [createSubs] at h
    cases hf : sources.find? (fun s => s.uuid == r.source_uuid) with
    | none => rw [hf] at h; cases h
    | some s =>
      rw [hf] at h
      rcases Option.map_eq_some'.mp h with ⟨q, hq, hfq⟩
      subst hfq
      simp only [List.map_cons, mkSubmission_uuid]
      rw [ih _ _ hq]

theorem createSubs_none_of_missing (sources : List Source)
    (rs : List RemoteSubmission) (r : RemoteSubmission) (hr : r ∈ rs)
    (h : sources.find? (fun s => s.uuid == r.source_uuid) = none) :
    ∀ next, createSubs sources next rs = none := by
  induction rs with
  | nil => exact absurd hr (List.not_mem_nil r)
  | cons hd tl ih =>
    intro next
    simp only [createSubs]
    rcases List.mem_cons.mp hr with heq | htl
    · subst heq
      simp only [h]
    · cases hf : sources.find? (fun s => s.uuid == hd.source_uuid) with
      | none => rfl
      | some s => simp only [ih htl, Option.map_none']

theorem createReplies_some_map_uuid (sources : List Source) (rs : List RemoteReply) :
    ∀ (st : RState) (p : List Reply × RState),
      createReplies sources rs st = some p →
      p.1.map (fun l => l.uuid) = rs.map (fun r => r.uuid) := by
  induction rs with
  | nil =>
    intro st p h
    simp only [createReplies] at h
    injection h with h
    subst h
    rfl
  | cons r rs ih =>
    intro st p h
    simp only [createReplies] at h
    cases hf : sources.find? (fun s => s.uuid == r.source_uuid) with
    | none => rw [hf] at h; cases h
    | some s =>
      rw [hf] at h
      cases hd : st.drafts.find? (fun d => d.uuid == r.uuid) with
      | some d =>
        rw [hd] at h
        rcases Option.map_eq_some'.mp h with ⟨q, hq, hfq⟩
        subst hfq
        simp only [List.map_cons, mkReply_uuid]
        rw [ih _ _ hq]
      | none =>
        rw [hd] at h
        rcases Option.map_eq_some'.mp h with ⟨q, hq, hfq⟩
        subst hfq
        simp only [List.map_cons, mkReply_uuid]
        rw [ih _ _ hq]

theorem createReplies_none_of_missing (sources : List Source) (rs : List RemoteReply)
    (r : RemoteReply) (hr : r ∈ rs)
    (h : sources.find? (fun s => s.uuid == r.source_uuid) = none) :
    ∀ st, createReplies sources rs st = none := by
  induction rs with
  | nil => exact absurd hr (List.not_mem_nil r)
  | cons hd tl ih =>
    intro st
    simp only [createReplies]
    rcases List.mem_cons.mp hr with heq | htl
    · subst heq
      simp only [h]
    · cases hf : sources.find? (fun s => s.uuid == hd.source_uuid) with
      | none => rfl
      | some s =>
        cases hd2 : st.drafts.find? (fun d => d.uuid == hd.uuid) with
        | some d => simp only [ih htl, Option.map_none']
        | none => simp only [ih htl, Option.map_none']

theorem updateKeptReplies_rows_map_uuid (dd : String) (ps : List (Reply × RemoteReply)) :
    ∀ (users : List User) (nid : Nat) (fs : Fs),
      (updateKeptReplies dd ps users nid fs).rows.map (fun l => l.uuid) =
        ps.map (fun p => p.1.uuid) := by
  induction ps with
  | nil => intro users nid fs; rfl
  | cons p ps ih =>
    intro users nid fs
    simp only [updateKeptReplies, List.map_cons, ih]

/-- The set of uuids after one reconcile pass — locals matched by a remote
item plus remote items absent locally — is exactly the remote uuid set. -/
theorem mem_sync_uuid {β : Type} (localUuids : List String) (remote : List β)
    (ru : β → String) (u : String) :
    ((∃ v ∈ localUuids, (remote.find? (fun r => ru r == v)).isSome ∧ v = u) ∨
      u ∈ (remote.filter (fun r => !(localUuids.contains (ru r)))).map ru) ↔
    u ∈ remote.map ru := by
  constructor
  · rintro (⟨v, hv, hsome, rfl⟩ | hc)
    · rcases Option.isSome_iff_exists.mp hsome with ⟨r, hr⟩
      have h1 := List.find?_some hr
      exact List.mem_map.mpr ⟨r, List.mem_of_find?_eq_some hr, by simpa using h1⟩
    · rcases List.mem_map.mp hc with ⟨r, hr, hru⟩
      exact List.mem_map.mpr ⟨r, List.mem_of_mem_filter hr, hru⟩
  · intro h
    rcases List.mem_map.mp h with ⟨r, hr, hru⟩
    by_cases hloc : u ∈ localUuids
    · exact Or.inl ⟨u, hloc, List.find?_isSome.mpr ⟨r, hr, by simp [hru]⟩, rfl⟩
    · refine Or.inr (List.mem_map.mpr ⟨r, List.mem_filter.mpr ⟨hr, ?_⟩, hru⟩)
      have hnm : ¬ ru r ∈ localUuids := by rw [hru]; exact hloc
      simpa [List.elem_iff] using hnm

theorem update_sources_mem_uuid (remote : List RemoteSource) (db : Database) (fs : Fs)
    (dd : String) (u : String) :
    u ∈ (update_sources remote db fs dd).db.sources.map (fun s => s.uuid) ↔
      u ∈ remote.map (fun r => r.uuid) := by
  rw [← mem_sync_uuid (db.sources.map (fun s => s.uuid)) remote (fun r => r.uuid) u]
  simp only [update_sources]
  rw [List.map_append, List.mem_append]
  constructor
  · rintro (hk | hc)
    · left
      rcases List.mem_map.mp hk with ⟨s0, hs0, hs0u⟩
      rcases List.mem_filterMap.mp hs0 with ⟨l, hl, hfl⟩
      rcases Option.map_eq_some'.mp hfl with ⟨r, hr, hra⟩
      refine ⟨l.uuid, List.mem_map_of_mem _ hl, Option.isSome_iff_exists.mpr ⟨r, hr⟩, ?_⟩
      rw [← hs0u, ← hra, applySourceFields_uuid]
    · right
      rw [mkSourcesFrom_map_uuid] at hc
      exact hc
  · rintro (⟨v, hv, hsome, rfl⟩ | hc)
    · left
      rcases List.mem_map.mp hv with ⟨l, hl, hlu⟩
      rcases Option.isSome_iff_exists.mp hsome with ⟨r, hr⟩
      rw [← hlu] at hr
      refine List.mem_map.mpr ⟨applySourceFields l r, List.mem_filterMap.mpr ⟨l, hl, ?_⟩, ?_⟩
      · rw [hr]; rfl
      · rw [applySourceFields_uuid, hlu]
    · right
      rw [mkSourcesFrom_map_uuid]
      exact hc

theorem reconcileSubs_ok_mem_uuid (remote : List RemoteSubmission) (rows : List Submission)
    (sources : List Source) (next_id : Nat) (fs : Fs) (dd : String) (res : SubsResult)
    (h : reconcileSubs remote rows sources next_id fs dd = .ok res) (u : String) :
    u ∈ res.rows.map (fun l => l.uuid) ↔ u ∈ remote.map (fun r => r.uuid) := by
  simp only [reconcileSubs] at h
  cases hc : createSubs sources next_id
      (remote.filter (fun r => !((rows.map (fun l => l.uuid)).contains r.uuid))) with
  | none => rw [hc] at h; cases h
  | some created =>
    rw [hc] at h
    injection h with h
    subst h
    rw [← mem_sync_uuid (rows.map (fun l => l.uuid)) remote (fun r => r.uuid) u]
    rw [List.map_append, List.mem_append]
    have hcreated := createSubs_some_map_uuid sources
      (remote.filter (fun r => !((rows.map (fun l => l.uuid)).contains r.uuid))) _ _ hc
    constructor
    · rintro (hk | hcm)
      · left
        rcases List.mem_map.mp hk with ⟨s0, hs0, hs0u⟩
        rcases List.mem_map.mp hs0 with ⟨pr, hpr, hpra⟩
        rcases List.mem_filterMap.mp hpr with ⟨l, hl, hfl⟩
        rcases Option.map_eq_some'.mp hfl with ⟨r, hr, hra⟩
        refine ⟨l.uuid, List.mem_map_of_mem _ hl, Option.isSome_iff_exists.mpr ⟨r, ?_⟩, ?_⟩
        · exact hr
        · rw [← hs0u, ← hpra, ← hra]
          rfl
      · right
        rw [hcreated] at hcm
        exact hcm
    · rintro (⟨v, hv, hsome, rfl⟩ | hcm)
      · left
        rcases List.mem_map.mp hv with ⟨l, hl, hlu⟩
        rcases Option.isSome_iff_exists.mp hsome with ⟨r, hr⟩
        rw [← hlu] at hr
        refine List.mem_map.mpr ⟨applySubFields l r,
          List.mem_map.mpr ⟨(l, r), List.mem_filterMap.mpr ⟨l, hl, ?_⟩, rfl⟩, ?_⟩
        · rw [hr]; rfl
        · rw [applySubFields_uuid, hlu]
      · right
        rw [hcreated]
        exact hcm

theorem update_files_ok (remote : List RemoteSubmission) (db : Database) (fs : Fs)
    (dd : String) (res : SyncResult) (h : update_files remote db fs dd = .ok res) :
    (∃ r, reconcileSubs remote db.files db.sources db.next_id fs dd = .ok r ∧
      res.db.files = r.rows ∧ res.ops = r.ops) ∧
    res.db.sources = db.sources ∧ res.db.messages = db.messages ∧
    res.db.replies = db.replies ∧ res.db.draft_replies = db.draft_replies ∧
    res.db.users = db.users := by
  unfold update_files at h
  cases hc : reconcileSubs remote db.files db.sources db.next_id fs dd with
  | error e => rw [hc] at h; cases h
  | ok r =>
    rw [hc] at h
    injection h with h
    subst h
    exact ⟨⟨r, rfl, rfl, rfl⟩, rfl, rfl, rfl, rfl, rfl⟩

theorem update_messages_ok (remote : List RemoteSubmission) (db : Database) (fs : Fs)
    (dd : String) (res : SyncResult) (h : update_messages remote db fs dd = .ok res) :
    (∃ r, reconcileSubs remote db.messages db.sources db.next_id fs dd = .ok r ∧
      res.db.messages = r.rows ∧ res.ops = r.ops) ∧
    res.db.sources = db.sources ∧ res.db.files = db.files ∧
    res.db.replies = db.replies ∧ res.db.draft_replies = db.draft_replies ∧
    res.db.users = db.users := by
  unfold update_messages at h
  cases hc : reconcileSubs remote db.messages db.sources db.next_id fs dd with
  | error e => rw [hc] at h; cases h
  | ok r =>
    rw [hc] at h
    injection h with h
    subst h
    exact ⟨⟨r, rfl, rfl, rfl⟩, rfl, rfl, rfl, rfl, rfl⟩

theorem update_replies_ok (remote : List RemoteReply) (db : Database) (fs : Fs)
    (dd : String) (res : SyncResult) (h : update_replies remote db fs dd = .ok res) :
    ∃ p, createReplies db.sources (repliesToCreate remote db)
        { users := (updateKeptReplies dd (repliesKept remote db) db.users db.next_id fs).users,
          drafts := db.draft_replies,
          next_id := (updateKeptReplies dd (repliesKept remote db) db.users db.next_id fs).next_id,
          ops := [] } = some p ∧
      res.db.replies =
        (updateKeptReplies dd (repliesKept remote db) db.users db.next_id fs).rows ++ p.1 ∧
      res.db.draft_replies = p.2.drafts ∧
      res.db.users = p.2.users ∧
      res.db.sources = db.sources ∧ res.db.files = db.files ∧
      res.db.messages = db.messages ∧
      res.ops = (updateKeptReplies dd (repliesKept remote db) db.users db.next_id fs).ops ++
        p.2.ops ++ (repliesToDelete remote db).map (fun _ => Op.delete) ++ [Op.commit] := by
  simp only [update_replies] at h
  cases hc : createReplies db.sources (repliesToCreate remote db)
      { users := (updateKeptReplies dd (repliesKept remote db) db.users db.next_id fs).users,
        drafts := db.draft_replies,
        next_id := (updateKeptReplies dd (repliesKept remote db) db.users db.next_id fs).next_id,
        ops := [] } with
  | none => rw [hc] at h; cases h
  | some p =>
    rw [hc] at h
    injection h with h
    subst h
    exact ⟨p, rfl, rfl, rfl, rfl, rfl, rfl, rfl, rfl⟩

theorem update_replies_ok_mem_uuid (remote : List RemoteReply) (db : Database) (fs : Fs)
    (dd : String) (res : SyncResult) (h : update_replies remote db fs dd = .ok res)
    (u : String) :
    u ∈ res.db.replies.map (fun l => l.uuid) ↔ u ∈ remote.map (fun r => r.uuid) := by
  rcases update_replies_ok remote db fs dd res h with ⟨p, hc, hrep, _⟩
  rw [hrep, List.map_append, List.mem_append, updateKeptReplies_rows_map_uuid]
  have hcreated := createReplies_some_map_uuid db.sources (repliesToCreate remote db) _ _ hc
  rw [← mem_sync_uuid (db.replies.map (fun l => l.uuid)) remote (fun r => r.uuid) u]
  constructor
  · rintro (hk | hcm)
    · left
      simp only [repliesKept] at hk
      rcases List.mem_map.mp hk with ⟨pr, hpr, hpra⟩
      rcases List.mem_filterMap.mp hpr with ⟨l, hl, hfl⟩
      rcases Option.map_eq_some'.mp hfl with ⟨r, hr, hra⟩
      refine ⟨l.uuid, List.mem_map_of_mem _ hl, Option.isSome_iff_exists.mpr ⟨r, hr⟩, ?_⟩
      rw [← hpra, ← hra]
    · right
      rw [hcreated] at hcm
      simpa only [repliesToCreate] using hcm
  · rintro (⟨v, hv, hsome, rfl⟩ | hcm)
    · left
      simp only [repliesKept]
      rcases List.mem_map.mp hv with ⟨l, hl, hlu⟩
      rcases Option.isSome_iff_exists.mp hsome with ⟨r, hr⟩
      rw [← hlu] at hr
      refine List.mem_map.mpr ⟨(l, r), List.mem_filterMap.mpr ⟨l, hl, ?_⟩, hlu⟩
      rw [hr]
      rfl
    · right
      rw [hcreated]
      simpa only [repliesToCreate] using hcm

/-- The re-sequencing performed on draft promotion writes the confirmed
reply's counter, which equals the promoted draft's former counter; on
every draft it is therefore value-preserving. -/
theorem resequenceDrafts_self (sid ts c : Nat) (l : List DraftReply) :
    resequenceDrafts sid ts c c l = l := by
  unfold resequenceDrafts
  induction l with
  | nil => rfl
  | cons d l ih =>
    simp only [List.map_cons]
    rw [ih]
    congr 1
    split
    · rename_i hcond
      have hfc : d.file_counter = c := by
        simp only [Bool.and_eq_true, beq_iff_eq] at hcond
        exact hcond.1.2
      cases d
      simp_all
    · rfl

theorem createReplies_drafts_preserved (sources : List Source) (rs : List RemoteReply) :
    ∀ (st : RState) (p : List Reply × RState),
      createReplies sources rs st = some p →
      ∀ d ∈ st.drafts, (∀ r ∈ rs, r.uuid ≠ d.uuid) → d ∈ p.2.drafts := by
  induction rs with
  | nil =>
    intro st p h d hd _
    simp only [createReplies] at h
    injection h with h
    subst h
    exact hd
  | cons r rs ih =>
    intro st p h d hd hne
    simp only [createReplies] at h
    cases hf : sources.find? (fun s => s.uuid == r.source_uuid) with
    | none => rw [hf] at h; cases h
    | some s =>
      rw [hf] at h
      cases hfd : st.drafts.find? (fun d2 => d2.uuid == r.uuid) with
      | some d0 =>
        rw [hfd] at h
        rcases Option.map_eq_some'.mp h with ⟨q, hq, hfq⟩
        subst hfq
        apply ih _ _ hq d ?_ (fun r2 hr2 => hne r2 (List.mem_cons_of_mem r hr2))
        have hd0u : d0.uuid = r.uuid := by simpa using List.find?_some hfd
        have hdne : (d.uuid == d0.uuid) = false := by
          simp only [beq_eq_false_iff_ne, ne_eq, hd0u]
          exact fun hh => (hne r (List.mem_cons_self r rs)) hh.symm
        show d ∈ resequenceDrafts d0.source_id d0.timestamp d0.file_counter d0.file_counter
          (st.drafts.filter (fun d2 => !(d2.uuid == d0.uuid)))
        rw [resequenceDrafts_self]
        exact List.mem_filter.mpr ⟨hd, by rw [hdne]; rfl⟩
      | none =>
        rw [hfd] at h
        rcases Option.map_eq_some'.mp h with ⟨q, hq, hfq⟩
        subst hfq
        exact ih _ _ hq d hd (fun r2 hr2 => hne r2 (List.mem_cons_of_mem r hr2))

theorem update_sources_draft_kept (remote : List RemoteSource) (db : Database) (fs : Fs)
    (dd : String) (hid : (db.sources.map (fun s => s.id)).Nodup)
    (d : DraftReply) (hd : d ∈ db.draft_replies)
    (s : Source) (hs : s ∈ db.sources) (hsid : s.id = d.source_id)
    (hsu : s.uuid ∈ remote.map (fun r => r.uuid)) :
    d ∈ (update_sources remote db fs dd).db.draft_replies := by
  simp only [update_sources]
  refine List.mem_filter.mpr ⟨hd, ?_⟩
  simp only [Bool.not_eq_true', ← Bool.not_eq_true, List.elem_iff]
  intro hmem
  rcases List.mem_map.mp hmem with ⟨s2, hs2, hs2id⟩
  have hs2src : s2 ∈ db.sources := List.mem_of_mem_filter hs2
  have heq : s2 = s := by
    apply List.inj_on_of_nodup_map hid hs2src hs
    rw [hs2id, hsid]
  have hcond := List.of_mem_filter hs2
  rw [heq] at hcond
  simp only [Bool.not_eq_true', ← Bool.not_eq_true, List.elem_iff] at hcond
  exact hcond (by simpa using hsu)

theorem update_replies_draft_kept (remote : List RemoteReply) (db : Database) (fs : Fs)
    (dd : String) (res : SyncResult) (h : update_replies remote db fs dd = .ok res)
    (d : DraftReply) (hd : d ∈ db.draft_replies)
    (hne : ∀ r ∈ remote, r.uuid ≠ d.uuid) :
    d ∈ res.db.draft_replies := by
  rcases update_replies_ok remote db fs dd res h with ⟨p, hc, _, hdrafts, _⟩
  rw [hdrafts]
  exact createReplies_drafts_preserved db.sources (repliesToCreate remote db) _ p hc d hd
    (fun r hr => hne r (List.mem_of_mem_filter hr))

/-! ### Claim C1 -/

/-- C1 (amended): after a successful `update_local_storage` (reconcile_all)
pass over a remote snapshot, for each of the Source, File, Message and
Reply kinds the set of local uuids equals exactly the set of uuids present
in the snapshot for that kind — absent remote items were created, matched
ones updated in place, unmatched local ones deleted — and every DraftReply
row whose uuid matches no remote Reply *and whose owning Source is still
present in the snapshot* is left unchanged (a DraftReply of a deleted
Source is removed by the cascade). -/
theorem C1_reconcile_all_convergence (remoteSources : List RemoteSource)
    (remoteSubmissions : List RemoteSubmission) (remoteReplies : List RemoteReply)
    (db : Database) (fs : Fs) (dd : String) (res : SyncResult)
    (hid : (db.sources.map (fun s => s.id)).Nodup)
    (h : update_local_storage remoteSources remoteSubmissions remoteReplies db fs dd =
      .ok res) :
    (∀ u, u ∈ res.db.sources.map (fun s => s.uuid) ↔
      u ∈ remoteSources.map (fun r => r.uuid)) ∧
    (∀ u, u ∈ res.db.files.map (fun l => l.uuid) ↔
      u ∈ (remoteFiles remoteSubmissions).map (fun r => r.uuid)) ∧
    (∀ u, u ∈ res.db.messages.map (fun l => l.uuid) ↔
      u ∈ (remoteMessages remoteSubmissions).map (fun r => r.uuid)) ∧
    (∀ u, u ∈ res.db.replies.map (fun l => l.uuid) ↔
      u ∈ remoteReplies.map (fun r => r.uuid)) ∧
    (∀ d ∈ db.draft_replies, (∀ r ∈ remoteReplies, r.uuid ≠ d.uuid) →
      (∃ s ∈ db.sources, s.id = d.source_id ∧
        s.uuid ∈ remoteSources.map (fun r => r.uuid)) →
      d ∈ res.db.draft_replies) := by
  simp only [update_local_storage] at h
  cases h2 : update_files (remoteFiles remoteSubmissions)
      (update_sources remoteSources db fs dd).db
      (update_sources remoteSources db fs dd).fs dd with
  | error e => rw [h2] at h; dsimp only at h; cases h
  | ok r2 =>
    rw [h2] at h
    dsimp only at h
    cases h3 : update_messages (remoteMessages remoteSubmissions) r2.db r2.fs dd with
    | error e => rw [h3] at h; dsimp only at h; cases h
    | ok r3 =>
      rw [h3] at h
      dsimp only at h
      cases h4 : update_replies remoteReplies r3.db r3.fs dd with
      | error e => rw [h4] at h; dsimp only at h; cases h
      | ok r4 =>
        rw [h4] at h
        dsimp only at h
        injection h with h
        subst h
        rcases update_files_ok _ _ _ _ _ h2 with
          ⟨⟨rs2, hrs2, hfeq2, _⟩, hsrc2, hmsg2, hrep2, hdr2, hus2⟩
        rcases update_messages_ok _ _ _ _ _ h3 with
          ⟨⟨rs3, hrs3, hmeq3, _⟩, hsrc3, hfil3, hrep3, hdr3, hus3⟩
        rcases update_replies_ok _ _ _ _ _ h4 with
          ⟨p4, hc4, hrep4, hdr4, hus4, hsrc4, hfil4, hmsg4, hops4⟩
        refine ⟨?_, ?_, ?_, ?_, ?_⟩
        · intro u
          show u ∈ r4.db.sources.map (fun s => s.uuid) ↔ _
          rw [hsrc4, hsrc3, hsrc2]
          exact update_sources_mem_uuid remoteSources db fs dd u
        · intro u
          show u ∈ r4.db.files.map (fun l => l.uuid) ↔ _
          rw [hfil4, hfil3, hfeq2]
          exact reconcileSubs_ok_mem_uuid _ _ _ _ _ _ _ hrs2 u
        · intro u
          show u ∈ r4.db.messages.map (fun l => l.uuid) ↔ _
          rw [hmsg4, hmeq3]
          exact reconcileSubs_ok_mem_uuid _ _ _ _ _ _ _ hrs3 u
        · intro u
          show u ∈ r4.db.replies.map (fun l => l.uuid) ↔ _
          exact update_replies_ok_mem_uuid remoteReplies r3.db r3.fs dd r4 h4 u
        · intro d hd hne hsrc
          rcases hsrc with ⟨s, hs, hsid, hsu⟩
          have hd1 : d ∈ (update_sources remoteSources db fs dd).db.draft_replies :=
            update_sources_draft_kept remoteSources db fs dd hid d hd s hs hsid hsu
          have hd2 : d ∈ r2.db.draft_replies := by rw [hdr2]; exact hd1
          have hd3 : d ∈ r3.db.draft_replies := by rw [hdr3]; exact hd2
          show d ∈ r4.db.draft_replies
          exact update_replies_draft_kept remoteReplies r3.db r3.fs dd r4 h4 d hd3 hne

/-- The local Source of the C1 scenario. -/
def exC1src : Source := ⟨1, "s1", "jd", false, "pk", 2, true, "t"⟩

/-- A local DraftReply (of that Source) matched by no remote Reply. -/
def exC1draft : DraftReply := ⟨5, "u", 1, 2, 3, 0, .PENDING⟩

/-- The local store of the C1 scenario. -/
def exC1db : Database := ⟨[exC1src], [], [], [], [], [exC1draft], 10⟩

/-- A remote snapshot still carrying the Source. -/
def exC1rs : RemoteSource := ⟨"s1", "jd2", true, "pk2", 3, false, "t2"⟩

/-- The reconcile result of the C1 witness run. -/
def exC1res : SyncResult :=
  ⟨⟨[⟨1, "s1", "jd2", true, "pk2", 3, false, "t2"⟩], [], [], [], [], [exC1draft], 10⟩,
   ⟨[], []⟩, [Op.update, Op.commit, Op.commit, Op.commit, Op.commit], 0⟩

theorem C1_reconcile_all_convergence_witness :
    (exC1db.sources.map (fun s => s.id)).Nodup ∧
    update_local_storage [exC1rs] [] [] exC1db ⟨[], []⟩ "d" = .ok exC1res ∧
    ("s1" ∈ exC1res.db.sources.map (fun s => s.uuid) ↔
      "s1" ∈ [exC1rs].map (fun r => r.uuid)) ∧
    exC1draft ∈ exC1res.db.draft_replies :=
  ⟨by decide, by rfl,
   (C1_reconcile_all_convergence [exC1rs] [] [] exC1db ⟨[], []⟩ "d" exC1res
     (by decide) (by rfl)).1 "s1",
   (C1_reconcile_all_convergence [exC1rs] [] [] exC1db ⟨[], []⟩ "d" exC1res
     (by decide) (by rfl)).2.2.2.2 exC1draft (by decide) (by decide)
     ⟨exC1src, by decide, by decide, by decide⟩⟩

/-- C1 as frozen is false on the code: over an empty remote snapshot, the
local Source is deleted and the cascade removes its DraftReply even though
that draft's uuid matches no remote Reply — it is not left unchanged. -/
theorem C1_reconcile_all_convergence_counterexample :
    exC1draft ∈ exC1db.draft_replies ∧
    (∀ r ∈ ([] : List RemoteReply), r.uuid ≠ exC1draft.uuid) ∧
    (update_local_storage [] [] [] exC1db ⟨[], []⟩ "d").map
      (fun res => res.db.draft_replies) = .ok [] := by
  refine ⟨by decide, by simp, by rfl⟩

/-! ### Claim C9 -/

/-- C9: reconciling a remote File, Message or Reply with no matching local
row whose source reference resolves to no local Source makes the whole
reconcile call fail with the named `ErrorKind.MissingParent` error — no
row with a dangling parent is created and no anonymous error is raised. -/
theorem C9_missing_parent_error :
    (∀ (remote : List RemoteSubmission) (db : Database) (fs : Fs) (dd : String)
      (r : RemoteSubmission), r ∈ remote →
      (∀ l ∈ db.files, l.uuid ≠ r.uuid) →
      db.sources.find? (fun s => s.uuid == r.source_uuid) = none →
      update_files remote db fs dd = .error .MissingParent) ∧
    (∀ (remote : List RemoteSubmission) (db : Database) (fs : Fs) (dd : String)
      (r : RemoteSubmission), r ∈ remote →
      (∀ l ∈ db.messages, l.uuid ≠ r.uuid) →
      db.sources.find? (fun s => s.uuid == r.source_uuid) = none →
      update_messages remote db fs dd = .error .MissingParent) ∧
    (∀ (remote : List RemoteReply) (db : Database) (fs : Fs) (dd : String)
      (r : RemoteReply), r ∈ remote →
      (∀ l ∈ db.replies, l.uuid ≠ r.uuid) →
      db.sources.find? (fun s => s.uuid == r.source_uuid) = none →
      update_replies remote db fs dd = .error .MissingParent) := by
  refine ⟨?_, ?_, ?_⟩
  · intro remote db fs dd r hr hnl hns
    have hmem : r ∈ remote.filter
        (fun r2 => !((db.files.map (fun l => l.uuid)).contains r2.uuid)) := by
      refine List.mem_filter.mpr ⟨hr, ?_⟩
      have hnm : ¬ r.uuid ∈ db.files.map (fun l => l.uuid) := by
        intro hx
        rcases List.mem_map.mp hx with ⟨l, hl, hlu⟩
        exact hnl l hl hlu
      simpa [List.elem_iff] using hnm
    have hcn := createSubs_none_of_missing db.sources _ r hmem hns db.next_id
    simp only [update_files, reconcileSubs, hcn]
  · intro remote db fs dd r hr hnl hns
    have hmem : r ∈ remote.filter
        (fun r2 => !((db.messages.map (fun l => l.uuid)).contains r2.uuid)) := by
      refine List.mem_filter.mpr ⟨hr, ?_⟩
      have hnm : ¬ r.uuid ∈ db.messages.map (fun l => l.uuid) := by
        intro hx
        rcases List.mem_map.mp hx with ⟨l, hl, hlu⟩
        exact hnl l hl hlu
      simpa [List.elem_iff] using hnm
    have hcn := createSubs_none_of_missing db.sources _ r hmem hns db.next_id
    simp only [update_messages, reconcileSubs, hcn]
  · intro remote db fs dd r hr hnl hns
    have hmem : r ∈ repliesToCreate remote db := by
      refine List.mem_filter.mpr ⟨hr, ?_⟩
      have hnm : ¬ r.uuid ∈ db.replies.map (fun l => l.uuid) := by
        intro hx
        rcases List.mem_map.mp hx with ⟨l, hl, hlu⟩
        exact hnl l hl hlu
      simpa [List.elem_iff] using hnm
    have hcn := createReplies_none_of_missing db.sources _ r hmem hns
    simp only [update_replies, hcn]

/-- A remote submission referencing a source unknown locally. -/
def exC9sub : RemoteSubmission := ⟨"f1", "1-x-doc.gpg", 1, "u", false, "nosuchsource"⟩

/-- A remote reply referencing a source unknown locally. -/
def exC9rep : RemoteReply := ⟨"r1", "1-x-reply.gpg", 1, "nosuchsource", "ju", "jn"⟩

/-- An empty local store. -/
def exC9db : Database := ⟨[], [], [], [], [], [], 1⟩

theorem C9_missing_parent_error_witness :
    update_files [exC9sub] exC9db ⟨[], []⟩ "d" = .error .MissingParent ∧
    update_messages [exC9sub] exC9db ⟨[], []⟩ "d" = .error .MissingParent ∧
    update_replies [exC9rep] exC9db ⟨[], []⟩ "d" = .error .MissingParent :=
  ⟨C9_missing_parent_error.1 [exC9sub] exC9db ⟨[], []⟩ "d" exC9sub (by decide)
    (by decide) (by decide),
   C9_missing_parent_error.2.1 [exC9sub] exC9db ⟨[], []⟩ "d" exC9sub (by decide)
    (by decide) (by decide),
   C9_missing_parent_error.2.2 [exC9rep] exC9db ⟨[], []⟩ "d" exC9rep (by decide)
    (by decide) (by decide)⟩

/-! ### Commit-counting lemmas -/

theorem count_commit_map_update {α : Type} (l : List α) :
    (l.map (fun _ => Op.update)).count Op.commit = 0 := by
  rw [List.count_eq_zero]
  intro hmem
  rcases List.mem_map.mp hmem with ⟨a, _, ha⟩
  cases ha

theorem count_commit_map_add {α : Type} (l : List α) :
    (l.map (fun _ => Op.add)).count Op.commit = 0 := by
  rw [List.count_eq_zero]
  intro hmem
  rcases List.mem_map.mp hmem with ⟨a, _, ha⟩
  cases ha

theorem count_commit_map_delete {α : Type} (l : List α) :
    (l.map (fun _ => Op.delete)).count Op.commit = 0 := by
  rw [List.count_eq_zero]
  intro hmem
  rcases List.mem_map.mp hmem with ⟨a, _, ha⟩
  cases ha

theorem update_sources_one_commit (remote : List RemoteSource) (db : Database)
    (fs : Fs) (dd : String) :
    (update_sources remote db fs dd).ops.count Op.commit = 1 := by
  simp only [update_sources]
  rw [List.count_append, List.count_append, List.count_append,
    count_commit_map_update, count_commit_map_add, count_commit_map_delete]
  rfl

theorem reconcileSubs_ok_one_commit (remote : List RemoteSubmission)
    (rows : List Submission) (sources : List Source) (next_id : Nat) (fs : Fs)
    (dd : String) (res : SubsResult)
    (h : reconcileSubs remote rows sources next_id fs dd = .ok res) :
    res.ops.count Op.commit = 1 := by
  simp only [reconcileSubs] at h
  cases hc : createSubs sources next_id
      (remote.filter (fun r => !((rows.map (fun l => l.uuid)).contains r.uuid))) with
  | none => rw [hc] at h; cases h
  | some created =>
    rw [hc] at h
    injection h with h
    subst h
    show (_ ++ _ ++ _ ++ [Op.commit]).count Op.commit = 1
    rw [List.count_append, List.count_append, List.count_append,
      count_commit_map_update, count_commit_map_add, count_commit_map_delete]
    rfl

theorem focu_found (uuid username : String) (users : List User) (nid : Nat)
    (h : uuid ∈ users.map (fun u => u.uuid)) :
    (find_or_create_user uuid username users nid).users.map (fun u => u.uuid) =
      users.map (fun u => u.uuid) ∧
    (find_or_create_user uuid username users nid).ops = [Op.update] ∧
    (find_or_create_user uuid username users nid).next_id = nid := by
  rcases List.mem_map.mp h with ⟨v, hv, hvu⟩
  obtain ⟨y, hy⟩ : ∃ y, users.find? (fun u => u.uuid == uuid) = some y :=
    Option.isSome_iff_exists.mp (List.find?_isSome.mpr ⟨v, hv, by simp [hvu]⟩)
  have hyu : y.uuid = uuid := by simpa using List.find?_some hy
  refine ⟨?_, by simp [find_or_create_user, hy], by simp [find_or_create_user, hy]⟩
  simp only [find_or_create_user, hy, List.map_map]
  apply List.map_congr_left
  intro w _
  simp only [Function.comp_apply]
  split
  · rename_i hw
    simp only [beq_iff_eq] at hw
    rw [hyu, hw]
  · rfl

theorem updateKeptReplies_commits (dd : String) (ps : List (Reply × RemoteReply)) :
    ∀ (users : List User) (nid : Nat) (fs : Fs),
      (∀ p ∈ ps, p.2.journalist_uuid ∈ users.map (fun u => u.uuid)) →
      (updateKeptReplies dd ps users nid fs).users.map (fun u => u.uuid) =
        users.map (fun u => u.uuid) ∧
      (updateKeptReplies dd ps users nid fs).ops.count Op.commit = 0 := by
  induction ps with
  | nil => intro users nid fs _; exact ⟨rfl, rfl⟩
  | cons p ps ih =>
    intro users nid fs hall
    have hfu := focu_found p.2.journalist_uuid p.2.journalist_username users nid
      (hall p (List.mem_cons_self p ps))
    have hall2 : ∀ q ∈ ps, q.2.journalist_uuid ∈
        (find_or_create_user p.2.journalist_uuid p.2.journalist_username
          users nid).users.map (fun u => u.uuid) := by
      intro q hq
      rw [hfu.1]
      exact hall q (List.mem_cons_of_mem p hq)
    simp only [updateKeptReplies]
    constructor
    · rw [(ih _ _ _ hall2).1, hfu.1]
    · rw [List.count_append, List.count_append, (ih _ _ _ hall2).2, hfu.2.1]
      rfl

theorem createReplies_commits (sources : List Source) (rs : List RemoteReply) :
    ∀ (st : RState) (p : List Reply × RState),
      createReplies sources rs st = some p →
      (∀ r ∈ rs, r.journalist_uuid ∈ st.users.map (fun u => u.uuid)) →
      p.2.users.map (fun u => u.uuid) = st.users.map (fun u => u.uuid) ∧
      p.2.ops.count Op.commit = st.ops.count Op.commit := by
  induction rs with
  | nil =>
    intro st p h _
    simp only [createReplies] at h
    injection h with h
    subst h
    exact ⟨rfl, rfl⟩
  | cons r rs ih =>
    intro st p h hall
    simp only [createReplies] at h
    cases hf : sources.find? (fun s => s.uuid == r.source_uuid) with
    | none => rw [hf] at h; cases h
    | some s =>
      rw [hf] at h
      have hfu := focu_found r.journalist_uuid r.journalist_username st.users st.next_id
        (hall r (List.mem_cons_self r rs))
      cases hfd : st.drafts.find? (fun d2 => d2.uuid == r.uuid) with
      | some d0 =>
        rw [hfd] at h
        rcases Option.map_eq_some'.mp h with ⟨q, hq, hfq⟩
        subst hfq
        have hrest := ih _ _ hq (by
          intro r2 hr2
          show r2.journalist_uuid ∈ (find_or_create_user r.journalist_uuid
            r.journalist_username st.users st.next_id).users.map (fun u => u.uuid)
          rw [hfu.1]
          exact hall r2 (List.mem_cons_of_mem r hr2))
        constructor
        · rw [hrest.1]
          exact hfu.1
        · rw [hrest.2]
          show (st.ops ++ _ ++ [Op.delete, Op.add]).count Op.commit = _
          rw [List.count_append, List.count_append, hfu.2.1]
          rfl
      | none =>
        rw [hfd] at h
        rcases Option.map_eq_some'.mp h with ⟨q, hq, hfq⟩
        subst hfq
        have hrest := ih _ _ hq (by
          intro r2 hr2
          show r2.journalist_uuid ∈ (find_or_create_user r.journalist_uuid
            r.journalist_username st.users st.next_id).users.map (fun u => u.uuid)
          rw [hfu.1]
          exact hall r2 (List.mem_cons_of_mem r hr2))
        constructor
        · rw [hrest.1]
          exact hfu.1
        · rw [hrest.2]
          show (st.ops ++ _ ++ [Op.add]).count Op.commit = _
          rw [List.count_append, List.count_append, hfu.2.1]
          rfl

theorem repliesKept_snd_mem (remote : List RemoteReply) (db : Database)
    (pr : Reply × RemoteReply) (h : pr ∈ repliesKept remote db) : pr.2 ∈ remote := by
  simp only [repliesKept] at h
  rcases List.mem_filterMap.mp h with ⟨l, _, hfl⟩
  rcases Option.map_eq_some'.mp hfl with ⟨r, hr, hra⟩
  rw [← hra]
  exact List.mem_of_find?_eq_some hr

/-! ### Claim C4 -/

/-- C4 (amended): `update_sources`, `update_files` and `update_messages`
commit their staged batch exactly once per call (never once per row);
`update_replies` commits exactly once provided every remote reply's
journalist already has a local User row — a reply reconcile that has to
create a journalist User commits an extra time inside
`find_or_create_user`, which persists the new row immediately. -/
theorem C4_one_commit_per_reconcile_call :
    (∀ (remote : List RemoteSource) (db : Database) (fs : Fs) (dd : String),
      (update_sources remote db fs dd).ops.count Op.commit = 1) ∧
    (∀ (remote : List RemoteSubmission) (db : Database) (fs : Fs) (dd : String)
      (res : SyncResult), update_files remote db fs dd = .ok res →
      res.ops.count Op.commit = 1) ∧
    (∀ (remote : List RemoteSubmission) (db : Database) (fs : Fs) (dd : String)
      (res : SyncResult), update_messages remote db fs dd = .ok res →
      res.ops.count Op.commit = 1) ∧
    (∀ (remote : List RemoteReply) (db : Database) (fs : Fs) (dd : String)
      (res : SyncResult), update_replies remote db fs dd = .ok res →
      (∀ r ∈ remote, r.journalist_uuid ∈ db.users.map (fun u => u.uuid)) →
      res.ops.count Op.commit = 1) := by
  refine ⟨update_sources_one_commit, ?_, ?_, ?_⟩
  · intro remote db fs dd res h
    rcases update_files_ok remote db fs dd res h with ⟨⟨rs2, hrs2, _, hops⟩, _⟩
    rw [hops]
    exact reconcileSubs_ok_one_commit _ _ _ _ _ _ _ hrs2
  · intro remote db fs dd res h
    rcases update_messages_ok remote db fs dd res h with ⟨⟨rs2, hrs2, _, hops⟩, _⟩
    rw [hops]
    exact reconcileSubs_ok_one_commit _ _ _ _ _ _ _ hrs2
  · intro remote db fs dd res h hall
    rcases update_replies_ok remote db fs dd res h with ⟨p, hc, _, _, _, _, _, _, hops⟩
    have hkept : ∀ pr ∈ repliesKept remote db,
        pr.2.journalist_uuid ∈ db.users.map (fun u => u.uuid) := by
      intro pr hpr
      exact hall pr.2 (repliesKept_snd_mem remote db pr hpr)
    have hk := updateKeptReplies_commits dd (repliesKept remote db) db.users db.next_id fs hkept
    have hcr := createReplies_commits db.sources (repliesToCreate remote db) _ p hc (by
      intro r2 hr2
      show r2.journalist_uuid ∈ (updateKeptReplies dd (repliesKept remote db)
        db.users db.next_id fs).users.map (fun u => u.uuid)
      rw [hk.1]
      exact hall r2 (List.mem_of_mem_filter hr2))
    rw [hops, List.count_append, List.count_append, List.count_append, hk.2,
      count_commit_map_delete]
    have hp2 : p.2.ops.count Op.commit = 0 := by rw [hcr.2]; rfl
    rw [hp2]
    rfl

/-- The Source the C4 runs reconcile against. -/
def exC4src : Source := ⟨1, "s2", "jd", false, "pk", 2, true, "t"⟩

/-- A store with no local User for the incoming reply's journalist. -/
def exC4db : Database := ⟨[exC4src], [], [], [], [], [], 10⟩

/-- The same store with the journalist already present. -/
def exC4dbU : Database := ⟨[exC4src], [⟨7, "ju", "jn"⟩], [], [], [], [], 10⟩

/-- A remote reply attributed to journalist `ju`. -/
def exC4rep : RemoteReply := ⟨"u", "1-a-reply.gpg", 9, "s2", "ju", "jn"⟩

/-- The one-commit reply reconcile run of the C4 witness. -/
def exC4res : SyncResult :=
  ⟨⟨[exC4src], [⟨7, "ju", "jn"⟩], [], [],
    [⟨10, "u", "1-a-reply.gpg", 9, false, none, none, 1, 1, 7⟩], [], 11⟩,
   ⟨[], []⟩, [Op.update, Op.add, Op.commit], 0⟩

theorem C4_one_commit_per_reconcile_call_witness :
    (update_sources [] exC4db ⟨[], []⟩ "d").ops.count Op.commit = 1 ∧
    update_replies [exC4rep] exC4dbU ⟨[], []⟩ "d" = .ok exC4res ∧
    exC4res.ops.count Op.commit = 1 :=
  ⟨C4_one_commit_per_reconcile_call.1 [] exC4db ⟨[], []⟩ "d",
   by rfl,
   C4_one_commit_per_reconcile_call.2.2.2 [exC4rep] exC4dbU ⟨[], []⟩ "d" exC4res
     (by rfl) (by decide)⟩

/-- C4 as frozen is false on the code: a reply reconcile call that creates
an unknown journalist commits twice — once inside `find_or_create_user`
(which persists the new User immediately) and once for the batch. -/
theorem C4_one_commit_per_reconcile_call_counterexample :
    (update_replies [exC4rep] exC4db ⟨[], []⟩ "d").map
      (fun res => res.ops.count Op.commit) = .ok 2 := by rfl

/-! ### Claim C2 -/

theorem find?_draft_self (l : List DraftReply)
    (hnd : (l.map (fun d => d.uuid)).Nodup) (D : DraftReply) (hD : D ∈ l) :
    l.find? (fun d2 => d2.uuid == D.uuid) = some D := by
  induction l with
  | nil => cases hD
  | cons a l ih =>
    simp only [List.map_cons, List.nodup_cons] at hnd
    by_cases hb : (a.uuid == D.uuid) = true
    · have hau : a.uuid = D.uuid := by simpa using hb
      rcases List.mem_cons.mp hD with heq | htl
      · subst heq
        simp [List.find?]
      · exfalso
        exact hnd.1 (hau ▸ List.mem_map_of_mem _ htl)
    · have hDl : D ∈ l := by
        rcases List.mem_cons.mp hD with heq | htl
        · subst heq; simp at hb
        · exact htl
      have hbf : (a.uuid == D.uuid) = false := Bool.eq_false_iff.mpr hb
      simp only [List.find?, hbf]
      exact ih hnd.2 hDl

/-- C2 (amended): during reply reconciliation with a remote Reply whose
uuid equals a local DraftReply's uuid, the draft row is deleted and a
confirmed Reply row is created carrying the draft's former `file_counter`;
every other DraftReply of the same Source with the same `file_counter`
ordered after the promoted draft (later timestamp) ends re-sequenced to
the confirmed Reply's `file_counter`, and every other draft row is kept
unchanged (drafts ordered after with a strictly greater counter keep their
counter), preserving the relative order among the remaining drafts. -/
theorem C2_draft_promotion (r : RemoteReply) (db : Database) (fs : Fs) (dd : String)
    (res : SyncResult) (D : DraftReply) (s0 : Source)
    (hD : D ∈ db.draft_replies) (hDu : D.uuid = r.uuid)
    (hnd : (db.draft_replies.map (fun d => d.uuid)).Nodup)
    (hnl : ∀ l ∈ db.replies, l.uuid ≠ r.uuid)
    (hs : db.sources.find? (fun s => s.uuid == r.source_uuid) = some s0)
    (h : update_replies [r] db fs dd = .ok res) :
    (∀ d2 ∈ res.db.draft_replies, d2.uuid ≠ r.uuid) ∧
    (res.db.replies.filter (fun l => l.uuid == r.uuid)).length = 1 ∧
    (∀ l ∈ res.db.replies, l.uuid = r.uuid → l.file_counter = D.file_counter) ∧
    (∀ d2 ∈ db.draft_replies, d2.uuid ≠ r.uuid → d2 ∈ res.db.draft_replies) ∧
    (∀ d2 ∈ db.draft_replies, d2.uuid ≠ r.uuid → d2.source_id = D.source_id →
      d2.file_counter = D.file_counter → D.timestamp < d2.timestamp →
      ∃ d3 ∈ res.db.draft_replies, d3.uuid = d2.uuid ∧
        d3.file_counter = D.file_counter) := by
  have hkept : repliesKept [r] db = [] := by
    simp only [repliesKept]
    rw [List.filterMap_eq_nil_iff]
    intro l hl
    have hbf : (r.uuid == l.uuid) = false := by
      simp only [beq_eq_false_iff_ne, ne_eq]
      exact fun hh => hnl l hl hh.symm
    simp [List.find?, hbf]
  have hToCreate : repliesToCreate [r] db = [r] := by
    simp only [repliesToCreate]
    have hnm : ¬ r.uuid ∈ db.replies.map (fun l => l.uuid) := by
      intro hx
      rcases List.mem_map.mp hx with ⟨l, hl, hlu⟩
      exact hnl l hl hlu
    simp only [List.filter_cons, List.filter_nil]
    have hcf : ((db.replies.map (fun l => l.uuid)).contains r.uuid) = false := by
      rw [← Bool.not_eq_true, List.elem_iff]
      exact hnm
    rw [hcf]
    rfl
  have hfind : db.draft_replies.find? (fun d2 => d2.uuid == r.uuid) = some D := by
    rw [← hDu]
    exact find?_draft_self db.draft_replies hnd D hD
  rcases update_replies_ok [r] db fs dd res h with ⟨p, hc, hrep, hdr, _, _, _, _, _⟩
  rw [hkept, hToCreate] at hc
  simp only [updateKeptReplies] at hc
  simp only [createReplies, hs, hfind] at hc
  rw [hkept] at hrep
  simp only [updateKeptReplies, List.nil_append] at hrep
  injection hc with hc
  rw [← hc] at hrep hdr
  have hdr2 : res.db.draft_replies =
      resequenceDrafts D.source_id D.timestamp D.file_counter D.file_counter
        (db.draft_replies.filter (fun d2 => !(d2.uuid == D.uuid))) := hdr
  rw [resequenceDrafts_self] at hdr2
  have hrep2 : res.db.replies =
      [mkReply (find_or_create_user r.journalist_uuid r.journalist_username
          db.users db.next_id).next_id r s0.id
        (find_or_create_user r.journalist_uuid r.journalist_username
          db.users db.next_id).user.id D.file_counter] := hrep
  refine ⟨?_, ?_, ?_, ?_, ?_⟩
  · intro d2 hd2
    rw [hdr2] at hd2
    have := List.of_mem_filter hd2
    simp only [Bool.not_eq_true', beq_eq_false_iff_ne, ne_eq] at this
    rw [← hDu]
    exact this
  · rw [hrep2]
    simp [mkReply]
  · intro l hl _
    rw [hrep2] at hl
    rcases List.mem_singleton.mp hl with rfl
    rfl
  · intro d2 hd2 hne
    rw [hdr2]
    refine List.mem_filter.mpr ⟨hd2, ?_⟩
    simp only [Bool.not_eq_true', beq_eq_false_iff_ne, ne_eq]
    rw [hDu]
    exact hne
  · intro d2 hd2 hne _ hfc _
    refine ⟨d2, ?_, rfl, hfc⟩
    rw [hdr2]
    refine List.mem_filter.mpr ⟨hd2, ?_⟩
    simp only [Bool.not_eq_true', beq_eq_false_iff_ne, ne_eq]
    rw [hDu]
    exact hne

/-- The Source of the C2 scenario. -/
def exC2src : Source := ⟨1, "s2", "jd", false, "pk", 2, true, "t"⟩

/-- The draft (counter 3) confirmed by the remote system. -/
def exC2D : DraftReply := ⟨5, "u", 1, 2, 3, 0, .PENDING⟩

/-- A second draft with the same counter, ordered after (later timestamp). -/
def exC2B : DraftReply := ⟨6, "b", 1, 2, 3, 7, .PENDING⟩

/-- The remote Reply confirming draft `u`. -/
def exC2rep : RemoteReply := ⟨"u", "1-a-reply.gpg", 9, "s2", "ju", "jn"⟩

/-- The local store of the C2 scenario. -/
def exC2db : Database := ⟨[exC2src], [], [], [], [], [exC2D, exC2B], 10⟩

/-- The reconcile result of the C2 witness run. -/
def exC2res : SyncResult :=
  ⟨⟨[exC2src], [⟨10, "ju", "jn"⟩], [], [],
    [⟨11, "u", "1-a-reply.gpg", 9, false, none, none, 3, 1, 10⟩], [exC2B], 12⟩,
   ⟨[], []⟩, [Op.add, Op.commit, Op.delete, Op.add, Op.commit], 0⟩

theorem C2_draft_promotion_witness :
    update_replies [exC2rep] exC2db ⟨[], []⟩ "d" = .ok exC2res ∧
    (∀ d2 ∈ exC2res.db.draft_replies, d2.uuid ≠ exC2rep.uuid) ∧
    (exC2res.db.replies.filter (fun l => l.uuid == exC2rep.uuid)).length = 1 ∧
    exC2B ∈ exC2res.db.draft_replies :=
  ⟨by rfl,
   (C2_draft_promotion exC2rep exC2db ⟨[], []⟩ "d" exC2res exC2D exC2src
     (by decide) (by decide) (by decide) (by decide) (by decide) (by rfl)).1,
   (C2_draft_promotion exC2rep exC2db ⟨[], []⟩ "d" exC2res exC2D exC2src
     (by decide) (by decide) (by decide) (by decide) (by decide) (by rfl)).2.1,
   (C2_draft_promotion exC2rep exC2db ⟨[], []⟩ "d" exC2res exC2D exC2src
     (by decide) (by decide) (by decide) (by decide) (by decide) (by rfl)).2.2.2.1
     exC2B (by decide) (by decide)⟩

/-- A draft of the same Source ordered after the promoted draft, but with a
strictly greater counter. -/
def exC2cB : DraftReply := ⟨6, "b", 1, 2, 5, 0, .PENDING⟩

/-- A message of the same Source sitting at counter 4, between the
promoted draft's counter 3 and the later draft's counter 5. -/
def exC2cMsg : Submission := ⟨7, "m4", "4-x-msg.gpg", 1, "u", false, true, some true, some "c", 1⟩

/-- The local store of the C2 counterexample. -/
def exC2cdb : Database := ⟨[exC2src], [], [], [exC2cMsg], [], [exC2D, exC2cB], 10⟩

/-- C2 as frozen is false on the code: the draft with counter 5 is ordered
after the promoted draft (counter 3), yet after reconciliation it still
has counter 5 while the confirmed Reply has counter 3 and a Message of the
same Source sits between them at counter 4 — it is not re-sequenced to a
`file_counter` that places it immediately after the newly confirmed
Reply. -/
theorem C2_draft_promotion_counterexample :
    exC2cB.source_id = exC2D.source_id ∧
    exC2D.file_counter < exC2cB.file_counter ∧
    (update_replies [exC2rep] exC2cdb ⟨[], []⟩ "d").map (fun res =>
      (res.db.replies.map (fun l => l.file_counter),
       res.db.draft_replies.map (fun d => d.file_counter),
       res.db.messages.map (fun m => fileCounterOf m.filename))) =
      .ok ([3], [5], [4]) :=
  ⟨by decide, by decide, by rfl⟩

end Storage
